import Mathlib

/-!
Shallow embedding of the WordCraft suggestion-engine core
(`backend/services/nlp/...`) together with proofs about its specified
properties.

Conventions used throughout:

* Python `float` arithmetic is modelled with exact rationals (`ℚ`); the
  code under scrutiny only adds, multiplies, divides, clamps and compares
  scores, so the rational model tracks the intended real-number semantics.
* External linguistic resources (the WordNet corpus, the spaCy model, the
  sentence-transformer encoder, the ConceptNet web service, the NRC emotion
  lexicon, the pickled reranker artifact) are modelled as oracle functions
  packaged in environment structures.  Code written in the repository
  itself is embedded concretely; only the capability calls are abstract.
* Python `None` becomes `Option.none`; truthiness tests are translated at
  each use site (`None`/empty containers/empty strings/`0` are falsy).
* Strings are processed as `List Char`; `String.mk`/`String.data` convert
  at the boundaries.  Python's `str.lower`/`str.strip` and the regular
  expressions in the source are modelled over the ASCII range they are
  exercised with.
-/

namespace WordCraft

/-! ## Character and string utilities shared by the embedded modules -/

/-- Whitespace characters: the ASCII range of Python's regex class `\s`,
`str.strip` and `str.split`. -/
def isSpace (c : Char) : Bool :=
  c = ' ' || c = '\t' || c = '\n' || c = '\r' || c = '\x0b' || c = '\x0c'

/-- Uppercase ASCII letters. -/
def upperChars : List Char :=
  ['A', 'B', 'C', 'D', 'E', 'F', 'G', 'H', 'I', 'J', 'K', 'L', 'M',
   'N', 'O', 'P', 'Q', 'R', 'S', 'T', 'U', 'V', 'W', 'X', 'Y', 'Z']

/-- Lowercase ASCII letters. -/
def lowerChars : List Char :=
  ['a', 'b', 'c', 'd', 'e', 'f', 'g', 'h', 'i', 'j', 'k', 'l', 'm',
   'n', 'o', 'p', 'q', 'r', 's', 't', 'u', 'v', 'w', 'x', 'y', 'z']

/-- Pairing of uppercase with lowercase ASCII letters, used to model
Python's `str.lower` on the ASCII range. -/
def upperLowerPairs : List (Char × Char) := upperChars.zip lowerChars

/-- Lower one character (ASCII model of Python `str.lower`). -/
def charLower (c : Char) : Char :=
  match upperLowerPairs.lookup c with
  | some l => l
  | none => c

/-- Lower a character list. -/
def listLower (cs : List Char) : List Char := cs.map charLower

/-- ASCII letter test, the `[a-zA-Z]` character class. -/
def isAsciiLetter (c : Char) : Bool := c ∈ upperChars || c ∈ lowerChars

/-- Python `str.strip` over a character list. -/
def stripChars (cs : List Char) : List Char :=
  ((cs.dropWhile isSpace).reverse.dropWhile isSpace).reverse

/-- Length of the maximal prefix run satisfying `p`. -/
def countWhile (p : Char → Bool) : List Char → Nat
  | [] => 0
  | c :: cs => if p c then countWhile p cs + 1 else 0

/-- Replace every non-overlapping occurrence of `pat` (scanned left to
right) by `rep`: Python `str.replace`.  The `Nat` argument is recursion
fuel; callers pass the list length, which always suffices because every
step consumes at least one character. -/
def replaceAllAux (pat rep : List Char) : Nat → List Char → List Char
  | 0, cs => cs
  | _ + 1, [] => []
  | fuel + 1, c :: cs =>
    if pat ≠ [] ∧ pat.isPrefixOf (c :: cs) then
      rep ++ replaceAllAux pat rep fuel ((c :: cs).drop pat.length)
    else
      c :: replaceAllAux pat rep fuel cs

/-- Replace every occurrence of `pat` by `rep`. -/
def replaceAll (cs pat rep : List Char) : List Char :=
  replaceAllAux pat rep cs.length cs

/-- Count non-overlapping occurrences of `pat`, scanning left to right
(Python `str.count`). -/
def countOccAux (pat : List Char) : Nat → List Char → Nat
  | 0, _ => 0
  | _ + 1, [] => 0
  | fuel + 1, c :: cs =>
    if pat ≠ [] ∧ pat.isPrefixOf (c :: cs) then
      countOccAux pat fuel ((c :: cs).drop pat.length) + 1
    else
      countOccAux pat fuel cs

/-- Count non-overlapping occurrences of `pat` in `cs`. -/
def countOcc (cs pat : List Char) : Nat := countOccAux pat cs.length cs

/-- Split a character list on a single separator character
(Python `str.split(" ")` semantics: `""` yields `[""]`). -/
def splitOnChar (sep : Char) : List Char → List (List Char)
  | [] => [[]]
  | c :: cs =>
    if c = sep then
      [] :: splitOnChar sep cs
    else
      match splitOnChar sep cs with
      | t :: ts => (c :: t) :: ts
      | [] => [[c]]

/-- Python `" ".join`. -/
def joinSp : List String → String
  | [] => ""
  | [t] => t
  | t :: ts => t ++ " " ++ joinSp ts

/-- Python `str.split()` with no argument: split on whitespace runs,
dropping empty pieces. -/
def splitWs (cs : List Char) : List String :=
  ((splitOnChar ' ' (cs.map fun c => if isSpace c then ' ' else c)).filter
      (fun t => t ≠ [])).map String.mk

/-- Suffix test on strings (Python `str.endswith`). -/
def strEndsWith (s suffix : String) : Bool :=
  suffix.data.isSuffixOf s.data

/-- Python `str.endswith` with a tuple of alternatives. -/
def strEndsWithAny (s : String) (suffixes : List String) : Bool :=
  suffixes.any (fun suf => strEndsWith s suf)

/-! ## `blank_detector.py` -/

/-- Canonical blank token (`BLANK_TOKEN` in `blank_detector.py`). -/
def BLANK_TOKEN : String := "[BLANK]"

/-- Character list of the canonical blank token. -/
def blankTokChars : List Char := ['[', 'B', 'L', 'A', 'N', 'K', ']']

/-- Case-insensitive literal match of `pat` (given lowercase) against a
prefix of `cs`. -/
def matchLitCI : List Char → List Char → Bool
  | [], _ => true
  | _ :: _, [] => false
  | p :: ps, c :: cs => charLower c = p && matchLitCI ps cs

/-- Match one bracketed blank marker `open \s* blank \s* close`
(case-insensitive) at the head of `cs`, returning the match length. -/
def matchBracketBlank (openC closeC : Char) (cs : List Char) : Option Nat :=
  match cs with
  | [] => none
  | c :: rest =>
    if c = openC then
      let w1 := countWhile isSpace rest
      let rest1 := rest.drop w1
      if matchLitCI ['b', 'l', 'a', 'n', 'k'] rest1 then
        let rest2 := rest1.drop 5
        let w2 := countWhile isSpace rest2
        match rest2.drop w2 with
        | c2 :: _ => if c2 = closeC then some (1 + w1 + 5 + w2 + 1) else none
        | [] => none
      else none
    else none

/-- Match one alternative of `BLANK_RE`
(`_{2,} | \.{3,} | \(\s*blank\s*\) | \[\s*blank\s*\] | <\s*blank\s*> |
\{\s*blank\s*\}`, case-insensitive) at the head of `cs`, returning the
match length.  Runs of underscores and dots are taken greedily, exactly as
the regex engine does. -/
def matchBlankLen (cs : List Char) : Option Nat :=
  match cs with
  | '_' :: '_' :: _ => some (countWhile (fun c => c = '_') cs)
  | '.' :: '.' :: '.' :: _ => some (countWhile (fun c => c = '.') cs)
  | _ =>
    (matchBracketBlank '(' ')' cs).orElse fun _ =>
    (matchBracketBlank '[' ']' cs).orElse fun _ =>
    (matchBracketBlank '<' '>' cs).orElse fun _ =>
    matchBracketBlank '\x7b' '\x7d' cs

/-- `BLANK_RE.sub(BLANK_TOKEN, ·)`: scan left to right, replacing each
match by the canonical token.  Fuel is the list length; each step consumes
at least one character. -/
def blankSubAux : Nat → List Char → List Char
  | 0, cs => cs
  | _ + 1, [] => []
  | fuel + 1, c :: cs =>
    match matchBlankLen (c :: cs) with
    | some n => blankTokChars ++ blankSubAux fuel ((c :: cs).drop (n.max 1))
    | none => c :: blankSubAux fuel cs

/-- `BLANK_RE.sub(BLANK_TOKEN, cs)`. -/
def blankSub (cs : List Char) : List Char := blankSubAux cs.length cs

/-- `re.sub(r"\s*\[BLANK\]\s*", " [BLANK] ", ·)`: surround every literal
`[BLANK]` with single spaces, absorbing adjacent whitespace. -/
def spaceBlankSubAux : Nat → List Char → List Char
  | 0, cs => cs
  | _ + 1, [] => []
  | fuel + 1, c :: cs =>
    let all := c :: cs
    let w1 := countWhile isSpace all
    let rest := all.drop w1
    if blankTokChars.isPrefixOf rest then
      let w2 := countWhile isSpace (rest.drop blankTokChars.length)
      (' ' :: blankTokChars ++ [' ']) ++
        spaceBlankSubAux fuel (all.drop (w1 + blankTokChars.length + w2))
    else
      c :: spaceBlankSubAux fuel cs

/-- Apply the `\s*\[BLANK\]\s*` substitution. -/
def spaceBlankSub (cs : List Char) : List Char := spaceBlankSubAux cs.length cs

/-- `re.sub(r"\s+", " ", ·)`: collapse every whitespace run to a single
space. -/
def wsCollapseAux : Nat → List Char → List Char
  | 0, cs => cs
  | _ + 1, [] => []
  | fuel + 1, c :: cs =>
    if isSpace c then ' ' :: wsCollapseAux fuel (cs.dropWhile isSpace)
    else c :: wsCollapseAux fuel cs

/-- Collapse whitespace runs to single spaces. -/
def wsCollapse (cs : List Char) : List Char := wsCollapseAux cs.length cs

/-- Result of `preprocess_text` (`PreprocessResult` named tuple). -/
structure PreprocessResult where
  cleaned_text : String
  normalized_text : String
  tokens : List String
  blank_index : Option Nat
  blank_present : Bool
deriving Repr, DecidableEq

/-- Indices of tokens equal to the blank token
(`[i for i, token in enumerate(tokens) if token == BLANK_TOKEN]`). -/
def blankPositions (tokens : List String) : List Nat :=
  (tokens.enum.filter (fun p => p.2 = BLANK_TOKEN)).map Prod.fst

/-- Blank the tokens at the positions after the first blank and drop the
resulting empty strings (lines 36–40 of `blank_detector.py`). -/
def dropExtraBlanks (tokens : List String) : List String :=
  let ps := blankPositions tokens
  if ps.length > 1 then
    (tokens.enum.map (fun p => if p.1 ∈ ps.tail then "" else p.2)).filter
      (fun t => t ≠ "")
  else tokens

/-- Character list after the three normalisation passes of
`preprocess_text` (strip, `BLANK_RE` substitution, blank-spacing
substitution, whitespace collapse, strip). -/
def preNormalizedChars (text : String) : List Char :=
  stripChars (wsCollapse (spaceBlankSub (blankSub (stripChars text.data))))

/-- Token list before the duplicate-blank removal
(`normalized.split(" ") if normalized else []`). -/
def preTokens0 (text : String) : List String :=
  let n3 := preNormalizedChars text
  if n3 = [] then [] else (splitOnChar ' ' n3).map String.mk

/-- Final token list of `preprocess_text`. -/
def preTokens (text : String) : List String := dropExtraBlanks (preTokens0 text)

/-- Final normalized text of `preprocess_text` (re-joined when duplicate
blanks were removed). -/
def preNormalized (text : String) : String :=
  if (blankPositions (preTokens0 text)).length > 1 then joinSp (preTokens text)
  else String.mk (preNormalizedChars text)

/-- Lower-cased cleaned text of `preprocess_text`: the blank token is
routed through the placeholder word `BLANKTOKEN` so that lower-casing
preserves it. -/
def preCleaned (text : String) : String :=
  let placeholderPass := replaceAll (preNormalized text).data blankTokChars "BLANKTOKEN".data
  String.mk (replaceAll (listLower placeholderPass) "blanktoken".data blankTokChars)

/-- `preprocess_text` from `blank_detector.py`: normalise whitespace,
collapse blank-marker spellings to the canonical token, keep only the
first blank token, and produce the lower-cased cleaned text. -/
def preprocess_text (text : String) : PreprocessResult :=
  if text = "" then ⟨"", "", [], none, false⟩
  else
    let tokens := preTokens text
    let blank_index := tokens.findIdx? (fun t => t = BLANK_TOKEN)
    ⟨preCleaned text, preNormalized text, tokens, blank_index, blank_index.isSome⟩

/-- Python `str.strip(".,!?;:")`: remove those characters from both ends. -/
def stripPunct (s : String) : String :=
  let isP : Char → Bool := fun c => c ∈ ['.', ',', '!', '?', ';', ':']
  String.mk (((s.data.dropWhile isP).reverse.dropWhile isP).reverse)

/-- `extract_focus_word` from `blank_detector.py`. -/
def extract_focus_word (tokens : List String) (blank_index : Option Nat) :
    Option String :=
  if tokens = [] then none
  else
    match blank_index with
    | some i =>
      if i > 0 then
        let w := stripPunct ((tokens.get? (i - 1)).getD "")
        if w = "" then none else some w
      else none
    | none =>
      (tokens.reverse.map stripPunct).find? (fun w => w ≠ "")

/-! ## `wordnet_service.py` -/

/-- Universal part-of-speech tags produced by the WordNet mapping
(`{"n": "NOUN", "v": "VERB", "a": "ADJ", "s": "ADJ", "r": "ADV"}`). -/
inductive POSTag where
  | NOUN
  | VERB
  | ADJ
  | ADV
deriving DecidableEq, Repr

/-- Display name of a tag. -/
def posToString : POSTag → String
  | POSTag.NOUN => "NOUN"
  | POSTag.VERB => "VERB"
  | POSTag.ADJ => "ADJ"
  | POSTag.ADV => "ADV"

/-- The four tags in the alphabetical order of their display names
(`"ADJ" < "ADV" < "NOUN" < "VERB"`), used to model Python's
`sorted` on tag sets. -/
def posAlpha : List POSTag := [POSTag.ADJ, POSTag.ADV, POSTag.NOUN, POSTag.VERB]

/-- First element of `sorted(s)` for a tag set. -/
def posSortedFirst (s : Finset POSTag) : Option POSTag :=
  (posAlpha.filter (fun p => p ∈ s)).head?

/-- Sorted display names of a tag set, for slot-hint strings. -/
def posSortedNames (s : Finset POSTag) : List String :=
  (posAlpha.filter (fun p => p ∈ s)).map posToString

/-- Python `", ".join`. -/
def joinComma : List String → String
  | [] => ""
  | [t] => t
  | t :: ts => t ++ ", " ++ joinComma ts

/-- `STOPWORDS` from `wordnet_service.py`. -/
def STOPWORDS : List String :=
  ["the", "a", "an", "and", "or", "but", "to", "of", "in", "on", "at",
   "for", "by", "with", "from"]

/-- The regular expression `^[a-zA-Z][a-zA-Z\-]*$` (`_WORD_RE`). -/
def matchesWordRe : List Char → Bool
  | [] => false
  | c :: cs => isAsciiLetter c && cs.all (fun d => isAsciiLetter d || d = '-')

/-- `is_valid_word` from `wordnet_service.py`: non-empty, length at least
3, not a stopword, and shaped like `_WORD_RE`. -/
def is_valid_word (word : String) : Bool :=
  if word = "" then false
  else if word.length < 3 then false
  else if word ∈ STOPWORDS then false
  else matchesWordRe word.data

/-- Oracle for the WordNet corpus behind `wordnet_service.py`.  Each field
models one corpus-dependent service function at its call boundary; the
parts of those functions written in the repository (the `None`/empty
guards and the frequency arithmetic) are embedded concretely below.
`lemmaCountTotal` is the total of the `max(0, lemma.count())` values
accumulated by `estimate_frequency`, hence a natural number. -/
structure WordNetData where
  posTags : String → Finset POSTag
  primaryPos : String → Option POSTag
  lemmaCountTotal : String → Nat
  synonymsMany : List String → Nat → List String
  derivationalForms : String → Nat → List String
  areSynonyms : String → String → Bool

/-- `get_pos_tags`: empty when WordNet is unavailable or the word is
empty. -/
def get_pos_tags (wn : Option WordNetData) (word : String) : Finset POSTag :=
  match wn with
  | none => ∅
  | some d => if word = "" then ∅ else d.posTags word

/-- `get_primary_pos`: `None` when WordNet is unavailable (or the corpus
has no synset, folded into the oracle). -/
def get_primary_pos (wn : Option WordNetData) (word : String) : Option POSTag :=
  match wn with
  | none => none
  | some d => d.primaryPos word

/-- `estimate_frequency`: `min(float(total), 20.0) / 20.0`, zero when
WordNet is unavailable or the word is empty. -/
def estimate_frequency (wn : Option WordNetData) (word : String) : ℚ :=
  match wn with
  | none => 0
  | some d => if word = "" then 0 else min ((d.lemmaCountTotal word : ℚ)) 20 / 20

/-- `get_synonyms`: empty when WordNet is unavailable. -/
def get_synonyms (wn : Option WordNetData) (words : List String) (maxPer : Nat) :
    List String :=
  match wn with
  | none => []
  | some d => d.synonymsMany words maxPer

/-- `get_derivational_forms`: empty when WordNet is unavailable or the
word is empty. -/
def get_derivational_forms (wn : Option WordNetData) (word : String)
    (maxResults : Nat) : List String :=
  match wn with
  | none => []
  | some d => if word = "" then [] else d.derivationalForms word maxResults

/-! ## Oracle environment for the remaining capabilities -/

/-- Oracle for the spaCy model (`en_core_web_sm`).  `none` models the
import/load failure paths (`_get_spacy() is None`); each field models one
spaCy-dependent helper at its call boundary. -/
structure SpacyData where
  contentTerms : String → Nat → List String
  tokenizeLemmas : String → List String
  wordPos : String → Option POSTag
  lastTokenPos : String → Option POSTag
  inferExpected : String → Option (Finset POSTag)
  slotHintText : String → Finset POSTag → String
  completeByDeps : String → Bool
  removeFillers : String → String
  injectAdverb : String → String → String
  replaceSuggestion : String → String → String

/-- Capability environment for one request.  `embedSentence` and
`wordEmbedding` always produce a vector (the encoder has a deterministic
hash fallback); `contextCentroid` can be absent.  `cosVal a b` models the
value of `np.dot(a, b) / (norm(a) * norm(b))` for vectors whose norms are
both non-zero; the zero/absent guards of `_cosine_similarity` are embedded
concretely in `cosine_similarity` below. -/
structure Env where
  wn : Option WordNetData
  spacy : Option SpacyData
  embedSentence : String → List ℚ
  wordEmbedding : String → List ℚ
  contextCentroid : String → Option (List ℚ)
  cosVal : List ℚ → List ℚ → ℚ
  conceptnetRelated : String → Nat → List String
  emotionScore : String → String → ℚ

/-- Sum of squares; zero exactly when the Euclidean norm is zero. -/
def normSq (v : List ℚ) : ℚ := (v.map (fun x => x * x)).sum

/-- `_cosine_similarity` from `ranker.py`: zero when either vector is
absent or the product of norms is zero. -/
def cosine_similarity (env : Env) : Option (List ℚ) → Option (List ℚ) → ℚ
  | none, _ => 0
  | some _, none => 0
  | some a, some b => if normSq a = 0 ∨ normSq b = 0 then 0 else env.cosVal a b

/-- `_scale_similarity`: rescale `[-1, 1]` to `[0, 1]`. -/
def scale_similarity (s : ℚ) : ℚ := (s + 1) / 2

/-! ## `ranker.py`: slot inference and grammatical fit -/

/-- `BLANK_PLACEHOLDER` from `ranker.py`. -/
def BLANK_PLACEHOLDER : String := "BLANKTOKEN"

/-- `COPULAR_VERBS` from `ranker.py`. -/
def COPULAR_VERBS : List String :=
  ["be", "seem", "feel", "become", "remain", "appear", "look", "sound",
   "smell", "taste", "grow", "get"]

/-- `IRREGULAR_ADVERBS` from `ranker.py`. -/
def IRREGULAR_ADVERBS : List String :=
  ["well", "fast", "hard", "late", "early", "straight", "right"]

/-- `_DETERMINERS` from `ranker.py`. -/
def DETERMINERS : List String :=
  ["a", "an", "the", "this", "that", "these", "those", "my", "your",
   "his", "her", "our", "their"]

/-- `_PREPOSITIONS` from `ranker.py`. -/
def PREPOSITIONS : List String :=
  ["in", "on", "at", "into", "with", "by", "for", "from", "to", "of",
   "over", "under"]

/-- `infer_expected_pos` from `ranker.py`.  The spaCy-tagged branch is the
oracle `inferExpected`; the fallback branch (no parser available) is
embedded concretely. -/
def infer_expected_pos (env : Env) (textWithPlaceholder : String) :
    Option (Finset POSTag) :=
  match env.spacy with
  | some sp => sp.inferExpected textWithPlaceholder
  | none =>
    let tokens := splitWs textWithPlaceholder.data
    if BLANK_PLACEHOLDER ∉ tokens then none
    else
      let idx := tokens.indexOf BLANK_PLACEHOLDER
      let prev := if idx > 0 then
          String.mk (listLower (((tokens.get? (idx - 1)).getD "").data)) else ""
      let next := if idx + 1 < tokens.length then
          String.mk (listLower (((tokens.get? (idx + 1)).getD "").data)) else ""
      if prev = "to" then some {POSTag.VERB}
      else if prev ∈ COPULAR_VERBS then some {POSTag.ADJ}
      else if prev ∈ DETERMINERS then some ({POSTag.NOUN, POSTag.ADJ})
      else if strEndsWithAny prev ["ed", "ing"] then some {POSTag.ADV}
      else if next ∈ PREPOSITIONS then
        if strEndsWithAny prev ["ed", "ing"] then some {POSTag.ADV}
        else some {POSTag.NOUN}
      else none

/-- `describe_slot_hint` from `ranker.py`; the spaCy branch is the oracle
`slotHintText`, the no-parser branch is concrete. -/
def describe_slot_hint (env : Env) (textWithPlaceholder : String)
    (expected : Option (Finset POSTag)) : Option String :=
  match expected with
  | none => none
  | some s =>
    if s = ∅ then none
    else
      match env.spacy with
      | none => some ("Fits expected " ++ joinComma (posSortedNames s) ++ " slot.")
      | some sp => some (sp.slotHintText textWithPlaceholder s)

/-- `_grammatical_fit` from `ranker.py`. -/
def grammatical_fit (env : Env) (word : String)
    (expected : Option (Finset POSTag)) : ℚ :=
  match expected with
  | none => 1
  | some expectedPos =>
    let tags := get_pos_tags env.wn word
    if tags = ∅ then 0.4
    else if (tags ∩ expectedPos) ≠ ∅ then
      if expectedPos = {POSTag.ADV} then
        if strEndsWith word "ly" || word ∈ IRREGULAR_ADVERBS then 1 else 0.45
      else if expectedPos = {POSTag.VERB} then
        if strEndsWithAny word ["e", "ed", "ing"] || POSTag.VERB ∈ tags then 1
        else 0.55
      else 1
    else if POSTag.ADJ ∈ expectedPos ∧ POSTag.ADV ∈ tags then 0.45
    else if POSTag.ADV ∈ expectedPos ∧ POSTag.ADJ ∈ tags then 0.45
    else 0

/-- `_resolve_pos` from `ranker.py`: display part-of-speech for one
suggestion.  The tail (`nlp(word)`) is the oracle `wordPos`; an unusable
parse yields `"X"`. -/
def resolve_pos (env : Env) (word : String)
    (expected : Option (Finset POSTag)) : String :=
  let tags := get_pos_tags env.wn word
  let fromOverlap : Option String :=
    match expected with
    | none => none
    | some s =>
      if s = ∅ then none
      else
        let overlap := tags ∩ s
        if overlap ≠ ∅ then (posSortedFirst overlap).map posToString else none
  match fromOverlap with
  | some out => out
  | none =>
    match get_primary_pos env.wn word with
    | some p => posToString p
    | none =>
      if tags ≠ ∅ then ((posSortedFirst tags).map posToString).getD "X"
      else
        match env.spacy with
        | none => "X"
        | some sp =>
          match sp.wordPos word with
          | some p => posToString p
          | none => "X"

/-! ## `pipeline.py` -/

/-- Tail character class of `_TOKEN_RE` (`[a-zA-Z\-']`). -/
def isTokenTailChar (c : Char) : Bool := isAsciiLetter c || c = '-' || c = '\''

/-- `_TOKEN_RE.findall`: leftmost matches of `[a-zA-Z][a-zA-Z\-']+`, each
taken greedily.  Fuel is the list length. -/
def findTokensAux : Nat → List Char → List String
  | 0, _ => []
  | _ + 1, [] => []
  | fuel + 1, c :: cs =>
    if isAsciiLetter c then
      match cs with
      | d :: _ =>
        if isTokenTailChar d then
          let n := countWhile isTokenTailChar cs
          String.mk (c :: cs.take n) :: findTokensAux fuel (cs.drop n)
        else findTokensAux fuel cs
      | [] => []
    else findTokensAux fuel cs

/-- All `_TOKEN_RE` matches in `cs`. -/
def findTokens (cs : List Char) : List String := findTokensAux cs.length cs

/-- `_tokenize` from `pipeline.py`: lower-cased regex tokens without a
parser, lemma tokens (oracle) with one. -/
def pipeTokenize (env : Env) (text : String) : List String :=
  match env.spacy with
  | none => (findTokens text.data).map (fun t => String.mk (listLower t.data))
  | some sp => sp.tokenizeLemmas text

/-- `_extract_content_terms` from `pipeline.py`: first-occurrence
deduplication (`dict.fromkeys`) of the tokens, truncated to `limit`;
with a parser the content-term selection is the oracle. -/
def extract_content_terms (env : Env) (text : String) (limit : Nat) :
    List String :=
  match env.spacy with
  | none => (pipeTokenize env text).eraseDups.take limit
  | some sp => sp.contentTerms text limit

/-- Provenance map: association list from candidate word to its (dedup)
list of source tags, modelling `dict[str, set[str]]` built with
`setdefault(...).add(...)`. -/
def insertSource : List (String × List String) → String → String →
    List (String × List String)
  | [], key, src => [(key, [src])]
  | (k, ss) :: rest, key, src =>
    if k = key then (k, if src ∈ ss then ss else ss ++ [src]) :: rest
    else (k, ss) :: insertSource rest key src

/-- `_add_candidate` from `pipeline.py`: strip, lower, then reject empty
words, the blank token, words with internal spaces, and words failing
`is_valid_word`. -/
def addCandidate (m : List (String × List String)) (word source : String) :
    List (String × List String) :=
  let cleaned := String.mk (listLower (stripChars word.data))
  if cleaned = "" then m
  else if cleaned = String.mk (listLower BLANK_TOKEN.data) then m
  else if ' ' ∈ cleaned.data then m
  else if ¬ is_valid_word cleaned then m
  else insertSource m cleaned source

/-- Keys of a provenance map. -/
def mapKeys (m : List (String × List String)) : List String := m.map Prod.fst

/-- `DRAFT_VERBS` from `pipeline.py` (a Python set; the iteration order is
unspecified there, the source-literal order is used here — it only
influences provenance-map ordering, never the key set). -/
def DRAFT_VERBS : List String :=
  ["consider", "explore", "remember", "reflect", "discover", "imagine",
   "reveal", "become", "feel", "linger"]

/-- `_IRREGULAR_ADV` from `pipeline.py`. -/
def pipelineIrregularAdv : List String :=
  ["well", "fast", "hard", "late", "early", "straight", "right", "near"]

/-- `IntentDecision` from `pipeline.py`. -/
structure IntentDecision where
  intent : String
  cleaned_text : String
  blank_present : Bool
  selection_text : String
  focus_terms : List String
  expected_pos : Option (Finset POSTag)
  strict_pos : Bool
  focus_window : String

/-- `_infer_selection_pos` from `pipeline.py`. -/
def infer_selection_pos (env : Env) (selection_text : String) :
    Option (Finset POSTag) :=
  let tokens := pipeTokenize env selection_text
  match tokens.getLast? with
  | none => none
  | some last =>
    let tags := get_pos_tags env.wn last
    if tags ≠ ∅ then some tags
    else
      match env.spacy with
      | none => none
      | some sp =>
        match sp.lastTokenPos selection_text with
        | some p => some {p}
        | none => none

/-- `_get_selection_text`: the stripped text of the optional selection
payload (modelled by its text field). -/
def getSelectionText (selection : Option String) : String :=
  String.mk (stripChars ((selection.getD "").data))

/-- `detect_intent` from `pipeline.py`: selection beats blank beats
sentence. -/
def detect_intent (env : Env) (text : String) (selection : Option String) :
    IntentDecision :=
  let processed := preprocess_text text
  let cleaned_text := processed.cleaned_text
  let selection_text := getSelectionText selection
  if selection_text ≠ "" then
    let focus0 := extract_content_terms env selection_text 4
    let focus_terms := if focus0 = [] then (pipeTokenize env selection_text).take 3
      else focus0
    let expected := infer_selection_pos env selection_text
    let strict := match expected with
      | some s => s.card = 1
      | none => false
    ⟨"selection", cleaned_text, processed.blank_present, selection_text,
      focus_terms, expected, strict, selection_text⟩
  else if processed.blank_present then
    let focus_word := (extract_focus_word processed.tokens processed.blank_index).getD ""
    let focusLow := String.mk (listLower focus_word.data)
    let focus1 := extract_content_terms env cleaned_text 5
    let focus_terms := if focus_word ≠ "" then
        focusLow :: focus1.filter (fun w => w ≠ focusLow)
      else focus1
    let pos_text := String.mk (replaceAll cleaned_text.data blankTokChars
      BLANK_PLACEHOLDER.data)
    let expected := infer_expected_pos env pos_text
    ⟨"blank", cleaned_text, true, "", focus_terms, expected, expected.isSome,
      cleaned_text⟩
  else
    let f0 := extract_content_terms env cleaned_text 6
    let focus_terms := if f0 = [] then (pipeTokenize env cleaned_text).take 6 else f0
    ⟨"sentence", cleaned_text, false, "", focus_terms, none, false, cleaned_text⟩

/-- `_expand_wordnet` from `pipeline.py`. -/
def expandWordnet (env : Env) (m0 : List (String × List String))
    (terms : List String) (mode : String) : List (String × List String) :=
  (terms.take 6).foldl (fun m term =>
    let m := (get_synonyms env.wn [term] 8).foldl (fun m syn =>
      let m := addCandidate m syn "wordnet"
      (get_derivational_forms env.wn syn 4).foldl
        (fun m d => addCandidate m d "derivational") m) m
    if mode = "write" ∨ mode = "rewrite" then
      (get_derivational_forms env.wn term 8).foldl
        (fun m d => addCandidate m d "derivational") m
    else m) m0

/-- `_expand_conceptnet` from `pipeline.py`. -/
def expandConceptnet (env : Env) (m0 : List (String × List String))
    (terms : List String) (mode : String) : List (String × List String) :=
  if mode = "write" ∨ mode = "rewrite" ∨ mode = "transform" then
    (terms.take 3).foldl (fun m term =>
      (env.conceptnetRelated term 10).foldl
        (fun m r => addCandidate m r "conceptnet") m) m0
  else m0

/-- `_add_slot_fallbacks` from `pipeline.py`. -/
def addSlotFallbacks (m0 : List (String × List String))
    (expected : Option (Finset POSTag)) (context_words : List String) :
    List (String × List String) :=
  match expected with
  | none => m0
  | some s =>
    if s = ∅ then m0
    else if s = {POSTag.ADV} then
      (context_words.take 24).foldl (fun m word =>
        if word ∈ pipelineIrregularAdv then addCandidate m word "slot"
        else
          let m := if strEndsWith word "y" ∧ word.length > 3 then
              addCandidate m (String.mk word.data.dropLast ++ "ily") "slot"
            else m
          addCandidate m (word ++ "ly") "slot") m0
    else if s = {POSTag.VERB} then
      DRAFT_VERBS.foldl (fun m w => addCandidate m w "slot") m0
    else if s = {POSTag.ADJ} then
      (context_words.take 20).foldl (fun m w => addCandidate m w "slot") m0
    else m0

/-- Context payload (`{"description": ..., "words": [...]}`). -/
structure CtxPayload where
  description : String
  words : List String

/-- `PipelineResult` from `pipeline.py`.  `candidates` is a Python `set`;
it is modelled as the (duplicate-free by construction) key list of the
provenance map. -/
structure PipelineResult where
  decision : IntentDecision
  candidates : List String
  source_map : List (String × List String)
  emotion_scores : List (String × ℚ)
  context_description : String

/-- Ascending insertion into a sorted string list. -/
def insertStr (x : String) : List String → List String
  | [] => [x]
  | y :: ys => if x ≤ y then x :: y :: ys else y :: insertStr x ys

/-- Python `sorted` on strings (lexicographic by code point). -/
def sortStrings : List String → List String
  | [] => []
  | x :: xs => insertStr x (sortStrings xs)

/-- `build_pipeline` stage 1: the context vocabulary seeds the map. -/
def pipeContextStage (context_words : List String) :
    List (String × List String) :=
  context_words.foldl (fun m w => addCandidate m w "context") []

/-- `build_pipeline` stage 2: lexical and semantic-network expansion when
focus terms exist. -/
def pipeExpandStage (env : Env) (mode : String) (decision : IntentDecision)
    (m : List (String × List String)) : List (String × List String) :=
  if decision.focus_terms ≠ [] then
    expandConceptnet env (expandWordnet env m decision.focus_terms mode)
      decision.focus_terms mode
  else m

/-- `build_pipeline` stage 3: draft verbs and slot fallbacks for a
blank. -/
def pipeBlankStage (decision : IntentDecision) (context_words : List String)
    (m : List (String × List String)) : List (String × List String) :=
  if decision.intent = "blank" then
    addSlotFallbacks (DRAFT_VERBS.foldl (fun m v => addCandidate m v "pattern") m)
      decision.expected_pos context_words
  else m

/-- `build_pipeline` stage 4: the selection focus terms. -/
def pipeSelectionStage (decision : IntentDecision)
    (m : List (String × List String)) : List (String × List String) :=
  if decision.intent = "selection" then
    (decision.focus_terms.take 3).foldl (fun m t => addCandidate m t "selection") m
  else m

/-- `build_pipeline` stage 5: the neutral vocabulary in `edit` mode. -/
def pipeEditStage (mode : String) (neutral_words : List String)
    (m : List (String × List String)) : List (String × List String) :=
  if mode = "edit" then
    neutral_words.foldl (fun m w => addCandidate m w "neutral") m
  else m

/-- `build_pipeline` stage 6: raw context words when everything else
produced nothing. -/
def pipeFallbackStage (context_words : List String)
    (m : List (String × List String)) : List (String × List String) :=
  if m = [] ∧ context_words ≠ [] then
    context_words.foldl (fun m w => addCandidate m w "fallback") m
  else m

/-- Provenance-map construction of `build_pipeline`: the generator chain
of `_add_candidate` calls, in source order. -/
def pipelineSourceMap (env : Env) (mode : String) (decision : IntentDecision)
    (context_words neutral_words : List String) :
    List (String × List String) :=
  pipeFallbackStage context_words
    (pipeEditStage mode neutral_words
      (pipeSelectionStage decision
        (pipeBlankStage decision context_words
          (pipeExpandStage env mode decision
            (pipeContextStage context_words)))))

/-- Candidate set of `build_pipeline`: the provenance-map keys, truncated
to 320 by sorted order when exceeded. -/
def pipelineCandidates (m : List (String × List String)) : List String :=
  let keys := mapKeys m
  if keys.length > 320 then (sortStrings keys).take 320 else keys

/-- `build_pipeline` from `pipeline.py`. -/
def build_pipeline (env : Env) (text context_key mode : String)
    (contexts : List (String × CtxPayload)) (selection : Option String) :
    PipelineResult :=
  let decision := detect_intent env text selection
  let context_words := match contexts.lookup context_key with
    | some p => p.words
    | none => []
  let context_description := match contexts.lookup context_key with
    | some p => p.description
    | none => "the selected tone"
  let neutral_words := match contexts.lookup "neutral" with
    | some p => p.words
    | none => []
  let m := pipelineSourceMap env mode decision context_words neutral_words
  let candidates := pipelineCandidates m
  let emotion_scores := candidates.map (fun w => (w, env.emotionScore w context_key))
  ⟨decision, candidates, m, emotion_scores, context_description⟩

/-- `estimate_semantic_drift` from `pipeline.py`: one minus the
content-term overlap ratio; zero when WordNet is unavailable or either
side has no content terms. -/
def estimate_semantic_drift (env : Env) (original rewritten : String) : ℚ :=
  match env.wn with
  | none => 0
  | some _ =>
    let before := (extract_content_terms env original 10).toFinset
    let after := (extract_content_terms env rewritten 10).toFinset
    if before = ∅ ∨ after = ∅ then 0
    else 1 - ((before ∩ after).card : ℚ) / ((max 1 before.card : ℕ) : ℚ)

/-! ## `ranker.py`: candidate scoring -/

/-- Python `round(x, 4)` (round half to even) over exact rationals. -/
def roundHalfEvenInt (x : ℚ) : ℤ :=
  let n := ⌊x⌋
  let d := x - (n : ℚ)
  if d < 1 / 2 then n
  else if 1 / 2 < d then n + 1
  else if n % 2 = 0 then n else n + 1

/-- Round to four decimal places, half to even. -/
def round4 (q : ℚ) : ℚ := ((roundHalfEvenInt (q * 10000) : ℤ) : ℚ) / 10000

/-- One scored suggestion (`{"word", "score", "pos", "note"}`). -/
structure ScoredItem where
  word : String
  score : ℚ
  pos : String
  note : String
deriving DecidableEq, Repr

/-- Feature weights used by `rank_candidates`. -/
structure RankWeights where
  semantic : ℚ
  context : ℚ
  emotion : ℚ
  grammar : ℚ
  frequency : ℚ
deriving DecidableEq, Repr

/-- Default weights of `rank_candidates`. -/
def defaultWeights : RankWeights :=
  { semantic := 0.42, context := 0.24, emotion := 0.08, grammar := 0.18,
    frequency := 0.08 }

/-- Python truthiness of an optional tag set. -/
def optPosTruthy : Option (Finset POSTag) → Bool
  | some s => s ≠ ∅
  | none => false

/-- Per-call constants of the `rank_candidates` scoring loop. -/
structure RankCtx where
  env : Env
  sentence_vector : Option (List ℚ)
  context_vector : Option (List ℚ)
  context_key : String
  context_description : String
  emotion_scores : Option (List (String × ℚ))
  active : RankWeights
  source_map : Option (List (String × List String))
  expected_pos : Option (Finset POSTag)
  slot_hint : Option String
  context_vocab : List String
  strict_pos : Bool

/-- Provenance bonus of one candidate (`source_score` accumulation). -/
def sourceBonus (source_map : Option (List (String × List String)))
    (word : String) : ℚ :=
  match source_map with
  | none => 0
  | some sm =>
    let sources := (sm.lookup word).getD []
    (if "wordnet" ∈ sources then (0.05 : ℚ) else 0)
      + (if "conceptnet" ∈ sources then 0.03 else 0)
      + (if "context" ∈ sources then 0.03 else 0)
      + (if "derivational" ∈ sources then 0.02 else 0)

/-- Emotion feature of one candidate (`emotion_scores.get(word, 0.0)`). -/
def emotionFeature (emotion_scores : Option (List (String × ℚ)))
    (word : String) : ℚ :=
  match emotion_scores with
  | none => 0
  | some es => (es.lookup word).getD 0

/-- Context-similarity feature with the literal-membership boost to at
least `0.62`. -/
def contextSimFeature (ctx : RankCtx) (word : String) : ℚ :=
  let base := scale_similarity (cosine_similarity ctx.env ctx.context_vector
    (some (ctx.env.wordEmbedding word)))
  if ctx.context_vocab ≠ [] ∧ word ∈ ctx.context_vocab then max base 0.62
  else base

/-- Semantic feature of one candidate. -/
def semanticFeature (ctx : RankCtx) (word : String) : ℚ :=
  scale_similarity (cosine_similarity ctx.env ctx.sentence_vector
    (some (ctx.env.wordEmbedding word)))

/-- Raw (pre-rounding) score of one candidate: the weighted feature sum
plus the provenance bonus.  No clamp is applied in `rank_candidates`. -/
def rawScore (ctx : RankCtx) (word : String) : ℚ :=
  ctx.active.semantic * semanticFeature ctx word
    + ctx.active.context * contextSimFeature ctx word
    + ctx.active.emotion * emotionFeature ctx.emotion_scores word
    + ctx.active.grammar * grammatical_fit ctx.env word ctx.expected_pos
    + ctx.active.frequency * estimate_frequency ctx.env.wn word
    + sourceBonus ctx.source_map word

/-- Reason list of one candidate, joined with single spaces into the
`note` field. -/
def rankNote (ctx : RankCtx) (word : String) : String :=
  let grammar := grammatical_fit ctx.env word ctx.expected_pos
  let context_sim := contextSimFeature ctx word
  let semantic := semanticFeature ctx word
  let frequency := estimate_frequency ctx.env.wn word
  let hintText := match ctx.slot_hint with
    | some h => if h = "" then "Fits the grammatical slot." else h
    | none => "Fits the grammatical slot."
  let reasons1 : List String :=
    if optPosTruthy ctx.expected_pos ∧ grammar ≥ 0.95 then [hintText]
    else if optPosTruthy ctx.expected_pos ∧ grammar < 0.2 then
      ["Weak grammatical fit."]
    else []
  let reasons2 : List String :=
    if context_sim ≥ 0.62 then ["Matches " ++ ctx.context_key ++ " tone."]
    else if ctx.context_description ≠ "" then
      ["Aligned with " ++ ctx.context_description ++ "."]
    else []
  let reasons3 : List String :=
    if semantic ≥ 0.62 then ["Strong semantic fit."]
    else if semantic ≥ 0.54 then ["Good semantic match."]
    else ["Lexical alternative for this context."]
  let reasons4 : List String := if frequency < 0.06 then ["Rare word."] else []
  joinSp (reasons1 ++ reasons2 ++ reasons3 ++ reasons4)

/-- Scored entry of one candidate word. -/
def rankScoreWord (ctx : RankCtx) (word : String) : ScoredItem :=
  { word := word
    score := round4 (rawScore ctx word)
    pos := resolve_pos ctx.env word ctx.expected_pos
    note := rankNote ctx word }

/-- Scoring loop of `rank_candidates`: skip invalid words; under strict
part-of-speech filtering skip candidates whose grammatical fit is below
`0.95`. -/
def rankLoop (ctx : RankCtx) : List String → List ScoredItem
  | [] => []
  | w :: ws =>
    if ¬ is_valid_word w then rankLoop ctx ws
    else if ctx.strict_pos ∧ optPosTruthy ctx.expected_pos
        ∧ grammatical_fit ctx.env w ctx.expected_pos < 0.95 then
      rankLoop ctx ws
    else rankScoreWord ctx w :: rankLoop ctx ws

/-- Stable descending insertion by a rational key (ties keep earlier items
first, matching Python's stable `sort(..., reverse=True)`). -/
def insertDescBy {α : Type} (key : α → ℚ) (x : α) : List α → List α
  | [] => [x]
  | y :: ys => if key y ≤ key x then x :: y :: ys else y :: insertDescBy key x ys

/-- Stable descending sort by a rational key. -/
def sortDescBy {α : Type} (key : α → ℚ) : List α → List α
  | [] => []
  | x :: xs => insertDescBy key x (sortDescBy key xs)

/-- The expected part-of-speech set actually used by `rank_candidates`:
the override when given, otherwise (for a blank) the slot inference on the
placeholder text. -/
def rankResolvedExpected (env : Env) (cleaned_text : String)
    (blank_present : Bool) (expected_pos_override : Option (Finset POSTag)) :
    Option (Finset POSTag) :=
  match expected_pos_override with
  | some s => some s
  | none =>
    if blank_present then
      infer_expected_pos env (String.mk (replaceAll cleaned_text.data
        blankTokChars BLANK_PLACEHOLDER.data))
    else none

/-- Assemble the per-call scoring context of `rank_candidates`. -/
def rankCtxOf (env : Env) (cleaned_text context_key : String)
    (context_description : String) (blank_present : Bool)
    (emotion_scores : Option (List (String × ℚ)))
    (weights : Option RankWeights)
    (source_map : Option (List (String × List String)))
    (strict_pos : Bool) (expected_pos_override : Option (Finset POSTag))
    (context_words : Option (List String)) : RankCtx :=
  let pos_text := String.mk (replaceAll cleaned_text.data blankTokChars
    BLANK_PLACEHOLDER.data)
  let expected_pos := rankResolvedExpected env cleaned_text blank_present
    expected_pos_override
  let slot_hint := match expected_pos_override with
    | some _ => none
    | none => if blank_present then describe_slot_hint env pos_text expected_pos
      else none
  { env := env
    sentence_vector := some (env.embedSentence cleaned_text)
    context_vector := env.contextCentroid context_key
    context_key := context_key
    context_description := context_description
    emotion_scores := emotion_scores
    active := weights.getD defaultWeights
    source_map := source_map
    expected_pos := expected_pos
    slot_hint := slot_hint
    context_vocab := context_words.getD []
    strict_pos := strict_pos }

/-- `rank_candidates` from `ranker.py`. -/
def rank_candidates (env : Env) (cleaned_text context_key : String)
    (candidates : List String) (context_description : String)
    (blank_present : Bool) (emotion_scores : Option (List (String × ℚ)))
    (weights : Option RankWeights) (top_k : Nat)
    (source_map : Option (List (String × List String)))
    (strict_pos : Bool) (expected_pos_override : Option (Finset POSTag))
    (context_words : Option (List String)) : List ScoredItem :=
  (sortDescBy (fun i => i.score)
    (rankLoop (rankCtxOf env cleaned_text context_key context_description
      blank_present emotion_scores weights source_map strict_pos
      expected_pos_override context_words) candidates)).take top_k

/-! ## `rewrite_service.py` -/

/-- Word characters, the ASCII range of the regex class `\w`. -/
def isWordChar (c : Char) : Bool := isAsciiLetter c || c.isDigit || c = '_'

/-- Terminal/medial punctuation class `[.,!?;:]` of
`_normalize_spacing`. -/
def punctList : List Char := ['.', ',', '!', '?', ';', ':']

/-- First pass of `_normalize_spacing`:
`re.sub(r"\s+([.,!?;:])", r"\1", ·)` — drop whitespace runs that precede
punctuation. -/
def normSpacingPass1 : Nat → List Char → List Char
  | 0, cs => cs
  | _ + 1, [] => []
  | fuel + 1, c :: cs =>
    let all := c :: cs
    if isSpace c then
      let n := countWhile isSpace all
      match all.drop n with
      | d :: rest =>
        if d ∈ punctList then d :: normSpacingPass1 fuel rest
        else c :: normSpacingPass1 fuel cs
      | [] => c :: normSpacingPass1 fuel cs
    else c :: normSpacingPass1 fuel cs

/-- `_normalize_spacing` from `rewrite_service.py`. -/
def normalize_spacing (text : String) : String :=
  String.mk (stripChars (wsCollapse (normSpacingPass1 text.data.length text.data)))

/-- Uppercase one character (ASCII model of Python `str.upper` on one
character). -/
def charUpper (c : Char) : Char :=
  match (upperLowerPairs.map (fun p => (p.2, p.1))).lookup c with
  | some u => u
  | none => c

/-- `_match_leading_case` from `rewrite_service.py`. -/
def match_leading_case (original updated : String) : String :=
  match original.data, updated.data with
  | o :: _, u :: us =>
    if o ∈ upperChars ∧ u ∈ lowerChars then String.mk (charUpper u :: us)
    else updated
  | _, _ => updated

/-- Trailing word-boundary test (`\b` after a match). -/
def boundaryAfter : List Char → Bool
  | [] => true
  | d :: _ => ! isWordChar d

/-- Case-insensitive whole-phrase replacement
(`re.sub(rf"\b{src}\b", dst, ·, flags=IGNORECASE)`).  The Bool argument
records whether the previous original character was a word character (the
leading `\b`). -/
def replaceWordCIAux (src dst : List Char) : Nat → Bool → List Char → List Char
  | 0, _, cs => cs
  | _ + 1, _, [] => []
  | fuel + 1, prevWord, c :: cs =>
    let all := c :: cs
    if ¬ prevWord ∧ matchLitCI src all ∧ boundaryAfter (all.drop src.length) then
      dst ++ replaceWordCIAux src dst fuel
        ((src.getLast?.map isWordChar).getD false) (all.drop src.length)
    else
      c :: replaceWordCIAux src dst fuel (isWordChar c) cs

/-- Replace the phrase `src` (given lowercase) by `dst` at word
boundaries, case-insensitively. -/
def replaceWordCI (cs src dst : List Char) : List Char :=
  replaceWordCIAux src dst cs.length false cs

/-- `COMMON_REPLACEMENTS` from `rewrite_service.py`. -/
def COMMON_REPLACEMENTS : List (String × String) :=
  [("in order to", "to"), ("due to the fact that", "because"),
   ("at this point in time", "now"), ("in the event that", "if"),
   ("a lot of", "many")]

/-- `_apply_common_replacements` from `rewrite_service.py`. -/
def apply_common_replacements (text : String) : String :=
  normalize_spacing (String.mk (COMMON_REPLACEMENTS.foldl
    (fun cs p => replaceWordCI cs p.1.data p.2.data) text.data))

/-- `FILLER_WORDS` in the `sorted` order used by the fallback regex
alternation. -/
def sortedFillerWords : List String :=
  ["actually", "basically", "just", "literally", "quite", "really", "very"]

/-- Fallback filler removal:
`re.sub(r"\b(actually|...|very)\b", "", ·, flags=IGNORECASE)`. -/
def removeFillersRegexAux (fillers : List (List Char)) :
    Nat → Bool → List Char → List Char
  | 0, _, cs => cs
  | _ + 1, _, [] => []
  | fuel + 1, prevWord, c :: cs =>
    let all := c :: cs
    match (if prevWord then none else fillers.find? (fun f =>
        matchLitCI f all && boundaryAfter (all.drop f.length))) with
    | some f => removeFillersRegexAux fillers fuel true (all.drop f.length)
    | none => c :: removeFillersRegexAux fillers fuel (isWordChar c) cs

/-- `_remove_fillers` from `rewrite_service.py`; with a parser the
part-of-speech-confirmed removal is the oracle `removeFillers`. -/
def remove_fillers (env : Env) (text : String) : String :=
  match env.spacy with
  | some sp => sp.removeFillers text
  | none =>
    normalize_spacing (String.mk (removeFillersRegexAux
      (sortedFillerWords.map String.data) text.data.length false text.data))

/-- `_is_complete_by_dependencies`: `False` without a parser. -/
def is_complete_by_dependencies (env : Env) (sentence : String) : Bool :=
  match env.spacy with
  | none => false
  | some sp => sp.completeByDeps sentence

/-- `is_sentence_complete` from `rewrite_service.py`: never complete with
a blank; at least 4 whitespace-separated tokens; terminal punctuation or a
dependency-parse check. -/
def is_sentence_complete (env : Env) (sentence : String)
    (blank_present : Bool) : Bool :=
  if blank_present then false
  else
    let tokens := splitWs sentence.data
    if tokens.length < 4 then false
    else if strEndsWithAny (String.mk (stripChars sentence.data)) [".", "!", "?"]
    then true
    else is_complete_by_dependencies env sentence

/-- `_ensure_terminal_punct` from `rewrite_service.py`. -/
def ensure_terminal_punct (text original : String) : String :=
  if text = "" then text
  else if strEndsWithAny (String.mk (stripChars original.data)) [".", "!", "?"]
  then (if strEndsWithAny text [".", "!", "?"] then text else text ++ ".")
  else text

/-- `_replace_with_suggestion` from `rewrite_service.py`: the identity
without a parser or with an empty suggestion; otherwise the oracle
`replaceSuggestion` (synonym-confirmed single substitution). -/
def replace_with_suggestion (env : Env) (text suggestion : String) : String :=
  if suggestion = "" then text
  else
    match env.spacy with
    | none => text
    | some sp => sp.replaceSuggestion text suggestion

/-- `TONE_ADVERBS` from `rewrite_service.py`. -/
def TONE_ADVERBS : List (String × String) :=
  [("nostalgia", "softly"), ("horror", "grimly"), ("romantic", "warmly"),
   ("academic", "systematically"), ("joyful", "brightly"),
   ("melancholic", "quietly"), ("hopeful", "steadily"),
   ("mysterious", "subtly"), ("formal", "carefully"), ("neutral", "clearly")]

/-- `_inject_tone_adverb` from `rewrite_service.py`: identity without a
parser or for an unknown tone; otherwise the oracle `injectAdverb`. -/
def inject_tone_adverb (env : Env) (text context : String) : String :=
  match env.spacy with
  | none => text
  | some sp =>
    match TONE_ADVERBS.lookup (String.mk (listLower context.data)) with
    | none => text
    | some tone => sp.injectAdverb text tone

/-- Mode-specific transformation step of `rewrite_sentence`. -/
def rewriteTransformed (env : Env) (base context mode : String)
    (suggestions : List String) : String :=
  if mode = "write" then base
  else if mode = "edit" then remove_fillers env base
  else if mode = "rewrite" then
    let r := inject_tone_adverb env (remove_fillers env base) context
    if suggestions ≠ [] then
      replace_with_suggestion env r ((suggestions.head?).getD "")
    else r
  else base

/-- Semantic-drift gate of `rewrite_sentence`: discard the transformation
and fall back to the untransformed base when drift exceeds `0.52`. -/
def rewriteGate (env : Env) (base rewritten : String) : String :=
  if estimate_semantic_drift env base rewritten > 0.52 then base else rewritten

/-- `rewrite_sentence` from `rewrite_service.py`. -/
def rewrite_sentence (env : Env) (sentence context mode : String)
    (blank_present allow_rewrite : Bool) (suggestions : List String) : String :=
  if sentence = "" ∨ ¬ allow_rewrite then ""
  else if ¬ is_sentence_complete env sentence blank_present then ""
  else
    let base := apply_common_replacements (normalize_spacing sentence)
    let rewritten := rewriteGate env base
      (rewriteTransformed env base context mode suggestions)
    match_leading_case sentence (ensure_terminal_punct rewritten sentence)

/-- Variant-collection loop of `rewrite_variants`: substitute each
suggestion into the base rewrite, keep new variants within the drift
budget, stop at `max_variants`. -/
def rewriteVariantsLoop (env : Env) (base : String) (max_variants : Nat) :
    List String → List String → List String
  | [], acc => acc
  | s :: rest, acc =>
    let variant := replace_with_suggestion env base s
    if variant = "" ∨ variant ∈ acc then
      rewriteVariantsLoop env base max_variants rest acc
    else
      let acc2 := if estimate_semantic_drift env base variant ≤ 0.52 then
          acc ++ [variant]
        else acc
      if acc2.length ≥ max_variants then acc2
      else rewriteVariantsLoop env base max_variants rest acc2

/-- `rewrite_variants` from `rewrite_service.py`. -/
def rewrite_variants (env : Env) (sentence context mode : String)
    (blank_present allow_rewrite : Bool) (suggestions : List String)
    (max_variants : Nat) : List String :=
  let base := rewrite_sentence env sentence context mode blank_present
    allow_rewrite suggestions
  if base = "" then []
  else
    if suggestions ≠ [] ∧ mode = "rewrite" then
      rewriteVariantsLoop env base max_variants suggestions [base]
    else [base]

/-! ## `ml_reranker.py` -/

/-- One candidate dictionary as consumed by `rerank_candidate_dicts` with
the default `text_key="word"` and `score_key="score"`; absent dictionary
keys are modelled by the `""`/`none` defaults. -/
structure RerankCand where
  word : String
  score : ℚ
  pos : String := ""
  source : String := ""
  reason : String := ""
  note : String := ""
  mlScore : Option ℚ := none
deriving DecidableEq, Repr

/-- The request payload interpolated into the feature text; `reprText`
models the `f"input={payload}"` dictionary rendering. -/
structure RerankPayload where
  mode : String := ""
  context : String := ""
  reprText : String := ""
deriving DecidableEq, Repr

/-- The loaded reranker artifact: the ordinal label values
(`model.classes_`) and the composed
`vectorizer.transform`/`model.predict_proba` call; `none` models an
exception raised while transforming or predicting. -/
structure RerankArtifact where
  classes : List ℚ
  proba : List String → Option (List (List ℚ))

/-- Environment of `rerank_candidate_dicts`: the
`WORDCRAFT_DISABLE_RERANKER` switch and the artifact as returned by
`_load_artifact` (`none` covers a missing file, an unpicklable payload, or
a payload without the `vectorizer`/`model` keys). -/
structure RerankEnv where
  disabled : Bool
  artifact : Option RerankArtifact

/-- `_feature_text` from `ml_reranker.py`. -/
def feature_text (task : String) (payload : RerankPayload)
    (cand : RerankCand) : String :=
  let reason := if cand.reason ≠ "" then cand.reason
    else if cand.note ≠ "" then cand.note else ""
  "task=" ++ task ++ " mode=" ++ payload.mode ++ " context=" ++ payload.context
    ++ " input=" ++ payload.reprText ++ " candidate=" ++ cand.word
    ++ " pos=" ++ cand.pos ++ " source=" ++ cand.source ++ " reason=" ++ reason

/-- `_prob_to_score` for one probability row: the probability-weighted sum
of the label values. -/
def prob_to_score (probRow classes : List ℚ) : ℚ :=
  (probRow.zip classes).foldl (fun acc p => acc + p.1 * p.2) 0

/-- `min(max(x, 0.0), 1.0)`. -/
def clamp01 (q : ℚ) : ℚ := min (max q 0) 1

/-- `candidates[:max_results] if max_results else candidates`: the
pass-through used by every disabled/degraded branch (`0`/`None` are
falsy). -/
def passThrough (cands : List RerankCand) (max_results : Option Nat) :
    List RerankCand :=
  match max_results with
  | some n => if n ≠ 0 then cands.take n else cands
  | none => cands

/-- `max(model.classes_)` guarded to `3.0` when empty or non-positive. -/
def rerankMaxLabel (classes : List ℚ) : ℚ :=
  match classes with
  | [] => 3
  | c :: cs =>
    let m := cs.foldl max c
    if m ≤ 0 then 3 else m

/-- Blend step for one active row and its raw score. -/
def rerankBlendItem (safe_blend maxLabel : ℚ) (p : RerankCand × ℚ) : RerankCand :=
  let ml := clamp01 (p.2 / maxLabel)
  let combined := safe_blend * ml + (1 - safe_blend) * p.1.score
  { p.1 with mlScore := some (round4 ml), score := round4 combined }

/-- `rerank_candidate_dicts` from `ml_reranker.py` (default
`text_key`/`score_key`). -/
def rerank_candidate_dicts (renv : RerankEnv) (task : String)
    (payload : RerankPayload) (cands : List RerankCand) (blend : ℚ)
    (max_results : Option Nat) : List RerankCand :=
  if cands = [] then cands
  else if renv.disabled then passThrough cands max_results
  else
    match renv.artifact with
    | none => passThrough cands max_results
    | some artifact =>
      let activeRows := cands.filter (fun c => String.mk (stripChars c.word.data) ≠ "")
      let texts := activeRows.map (feature_text task payload)
      if activeRows = [] then passThrough cands max_results
      else
        match artifact.proba texts with
        | none => passThrough cands max_results
        | some probRows =>
          let rawScores := probRows.map (fun row => prob_to_score row artifact.classes)
          let maxLabel := rerankMaxLabel artifact.classes
          let safe_blend := clamp01 blend
          let reranked := (activeRows.zip rawScores).map
            (rerankBlendItem safe_blend maxLabel)
          let sorted := sortDescBy (fun c => c.score) reranked
          match max_results with
          | some n => sorted.take (max 1 n)
          | none => sorted

/-! ## `explanation.py` -/

/-- `TONE_LABELS` from `explanation.py`. -/
def TONE_LABELS : List (String × String) :=
  [("neutral", "neutral"), ("nostalgia", "nostalgic"), ("horror", "horror"),
   ("romantic", "romantic"), ("academic", "academic"), ("joyful", "joyful"),
   ("melancholic", "melancholic"), ("hopeful", "hopeful"),
   ("mysterious", "mysterious"), ("formal", "formal")]

/-- `generate_explanation` from `explanation.py`. -/
def generate_explanation (context description : String) (words : List String)
    (mode : String) (blank_present selection_present : Bool)
    (intent : String) : String :=
  if words = [] then "Unable to generate suggestions at the moment."
  else
    let tone := if context ≠ "" then
        ((TONE_LABELS.lookup (String.mk (listLower context.data))).getD context)
      else "the selected"
    if selection_present then
      "Selection-focused suggestions ranked by semantic fit and " ++ tone ++ " tone."
    else if blank_present then
      "Blank-fill suggestions are grammar-filtered for the missing slot and aligned to a "
        ++ tone ++ " tone."
    else if mode = "edit" then
      "Polish mode prioritizes grammar safety and clarity with controlled tone."
    else if mode = "rewrite" then
      "Transform mode keeps sentence meaning while shifting style toward "
        ++ tone ++ " tone."
    else if intent = "sentence" then
      "Draft suggestions ranked by grammar fit, semantic match, and " ++ tone ++ " tone."
    else "Suggestions matched to your sentence intent in a " ++ tone ++ " tone."

/-! ## `engine.py` -/

/-- `_mode_weights` from `engine.py`. -/
def mode_weights (mode intent : String) : RankWeights :=
  if mode = "edit" then
    { semantic := 0.34, context := 0.12, emotion := 0.04, grammar := 0.36,
      frequency := 0.14 }
  else if mode = "rewrite" then
    { semantic := 0.44, context := 0.24, emotion := 0.08, grammar := 0.16,
      frequency := 0.08 }
  else if intent = "blank" then
    { semantic := 0.34, context := 0.16, emotion := 0.08, grammar := 0.34,
      frequency := 0.08 }
  else
    { semantic := 0.45, context := 0.23, emotion := 0.08, grammar := 0.16,
      frequency := 0.08 }

/-- `_should_rewrite` from `engine.py`: never with a blank present; the
sentence must be complete; `write`/`edit` always rewrite, `rewrite` only
on an explicit button trigger. -/
def should_rewrite (env : Env) (text mode trigger : String)
    (blank_present : Bool) : Bool :=
  if blank_present then false
  else if ¬ is_sentence_complete env text false then false
  else if mode = "write" ∨ mode = "edit" then true
  else decide (mode = "rewrite" ∧ trigger = "button")

/-- The response shape assembled by `generate_suggestions`. -/
structure SuggestionResponse where
  suggestions : List ScoredItem
  rewrite : String
  rewrites : List String
  explanation : String
  detected_blank : Bool
deriving DecidableEq, Repr

/-- `_fallback_response` from `engine.py`. -/
def fallback_response (detected_blank : Bool) : SuggestionResponse :=
  { suggestions := []
    rewrite := ""
    rewrites := []
    explanation := "Unable to generate suggestions at the moment."
    detected_blank := detected_blank }

/-- `_resolve_context_key` from `engine.py`.  `none` models the
`StopIteration` that `next(iter(contexts))` would raise on an empty
context dictionary — unreachable in the deployed process because
`load_contexts` raises instead of returning an empty dictionary. -/
def resolve_context_key (context : String)
    (contexts : List (String × CtxPayload)) : Option String :=
  let key := String.mk (listLower (stripChars context.data))
  if (contexts.lookup key).isSome then some key
  else if (contexts.lookup "neutral").isSome then some "neutral"
  else
    match contexts with
    | [] => none
    | (k, _) :: _ => some k

/-- `(mode or "write").strip().lower()`. -/
def engineModeKey (mode : String) : String :=
  String.mk (listLower (stripChars (if mode = "" then "write" else mode).data))

/-- The `rank_candidates` call issued by `generate_suggestions` for one
pipeline result. -/
def engineRanked (env : Env) (contexts : List (String × CtxPayload))
    (context_key mode_key : String) (pipeline : PipelineResult) :
    List ScoredItem :=
  rank_candidates env pipeline.decision.cleaned_text context_key
    pipeline.candidates pipeline.context_description
    (pipeline.decision.blank_present && (pipeline.decision.intent != "selection"))
    (some pipeline.emotion_scores)
    (some (mode_weights mode_key pipeline.decision.intent)) 5
    (some pipeline.source_map) pipeline.decision.strict_pos
    pipeline.decision.expected_pos
    (some (match contexts.lookup context_key with
      | some p => p.words
      | none => []))

/-- The rewrite-variant list assembled by `generate_suggestions`: gated by
`_should_rewrite`. -/
def engineRewrites (env : Env) (raw_text context_key mode_key trigger : String)
    (blank_present : Bool) (top_words : List String) : List String :=
  rewrite_variants env raw_text context_key mode_key blank_present
    (should_rewrite env raw_text mode_key trigger blank_present) top_words 3

/-- The main-path response of `generate_suggestions` (cleaned text and
candidate pool known non-empty). -/
def generateMain (env : Env) (contexts : List (String × CtxPayload))
    (context_key mode_key raw_text trigger : String)
    (pipeline : PipelineResult) : SuggestionResponse :=
  let blank_present := pipeline.decision.blank_present
  let ranked := engineRanked env contexts context_key mode_key pipeline
  let top_words := ranked.map (fun i => i.word)
  let rewrite_candidates := engineRewrites env raw_text context_key mode_key
    trigger blank_present top_words
  { suggestions := ranked
    rewrite := (rewrite_candidates.head?).getD ""
    rewrites := rewrite_candidates
    explanation := generate_explanation context_key
      pipeline.context_description top_words mode_key
      (blank_present && (pipeline.decision.intent != "selection"))
      (pipeline.decision.intent = "selection") pipeline.decision.intent
    detected_blank := blank_present }

/-- `generate_suggestions` from `engine.py`.  `initContexts` is the value
of `_CONTEXTS` after `initialize()`: `none` models the sticky
initialization failure, in which case every request receives the fallback
response.  The result is `none` only on the unreachable empty-contexts
path of `_resolve_context_key`. -/
def generate_suggestions (env : Env)
    (initContexts : Option (List (String × CtxPayload)))
    (text context mode : String) (selection : Option String)
    (trigger : String) : Option SuggestionResponse :=
  match initContexts with
  | none => some (fallback_response false)
  | some contexts =>
    let mode_key := engineModeKey mode
    match resolve_context_key context contexts with
    | none => none
    | some context_key =>
      let pipeline := build_pipeline env text context_key mode_key contexts
        selection
      if pipeline.decision.cleaned_text = "" then
        some (fallback_response pipeline.decision.blank_present)
      else if pipeline.candidates = [] then
        some (fallback_response pipeline.decision.blank_present)
      else some (generateMain env contexts context_key mode_key text trigger
        pipeline)

/-- Number of blank tokens in a token list. -/
def countBlank (l : List String) : Nat := l.countP (fun t => t = BLANK_TOKEN)

/-- Positions of blank tokens starting from index `n`; recursion-friendly
counterpart of `blankPositions`. -/
def posFrom (n : Nat) : List String → List Nat
  | [] => []
  | t :: ts => if t = BLANK_TOKEN then n :: posFrom (n + 1) ts else posFrom (n + 1) ts

/-- Token list after blanking out the indices in `bad` (counting from `n`);
recursion-friendly counterpart of the `enum.map` step of
`dropExtraBlanks`. -/
def eraseAt (n : Nat) : List String → List Nat → List String
  | [], _ => []
  | t :: ts, bad => (if n ∈ bad then "" else t) :: eraseAt (n + 1) ts bad

/-- Representative spellings of every blank-marker alternative recognised
by `BLANK_RE`. -/
def markerInputs : List String :=
  ["__", "_____", "...", "......", "(blank)", "[blank]", "<blank>",
   "\x7bblank\x7d", "( BLANK )", "[ Blank ]", "< bLaNk >", "\x7b blank \x7d"]

/-! ## Claim-support definitions -/

/-- Grammatical fit as the specification sentence literally enumerates it
("for an adverbial slot … 0.45 otherwise; for a verbal slot, 1.0 when the
word looks verb-inflected and 0.55 otherwise; 0.45 for cross-category
adjective/adverb confusion; and 0.0 in all remaining cases"), for
comparison with the embedded `grammatical_fit`. -/
def grammaticalFitClaimed (env : Env) (word : String)
    (expected : Option (Finset POSTag)) : ℚ :=
  match expected with
  | none => 1
  | some expectedPos =>
    let tags := get_pos_tags env.wn word
    if tags = ∅ then 0.4
    else if expectedPos = {POSTag.ADV} then
      if strEndsWith word "ly" || word ∈ IRREGULAR_ADVERBS then 1 else 0.45
    else if expectedPos = {POSTag.VERB} then
      if strEndsWithAny word ["e", "ed", "ing"] then 1 else 0.55
    else if (POSTag.ADJ ∈ expectedPos ∧ POSTag.ADV ∈ tags)
        ∨ (POSTag.ADV ∈ expectedPos ∧ POSTag.ADJ ∈ tags) then 0.45
    else 0

/-- Grammatical fit as the amended claim enumerates it: the adverbial
morphology test only applies inside a tag overlap; a verbal slot with
overlap always scores 1.0 (the overlap already certifies the VERB tag, so
the 0.55 value is unreachable); any other overlap scores 1.0;
cross-category adjective/adverb confusion without overlap scores 0.45;
everything else 0.0. -/
def grammaticalFitAmended (env : Env) (word : String)
    (expected : Option (Finset POSTag)) : ℚ :=
  match expected with
  | none => 1
  | some expectedPos =>
    let tags := get_pos_tags env.wn word
    if tags = ∅ then 0.4
    else if (tags ∩ expectedPos) ≠ ∅ then
      if expectedPos = {POSTag.ADV} then
        if strEndsWith word "ly" || word ∈ IRREGULAR_ADVERBS then 1 else 0.45
      else 1
    else if (POSTag.ADJ ∈ expectedPos ∧ POSTag.ADV ∈ tags)
        ∨ (POSTag.ADV ∈ expectedPos ∧ POSTag.ADJ ∈ tags) then 0.45
    else 0

/-- Weight sanity required by the score-bound claim: nonnegative entries
totalling at most 1 (every weight set the engine passes sums to exactly
1). -/
def weightsOK (w : RankWeights) : Prop :=
  0 ≤ w.semantic ∧ 0 ≤ w.context ∧ 0 ≤ w.emotion ∧ 0 ≤ w.grammar ∧
    0 ≤ w.frequency ∧
    w.semantic + w.context + w.emotion + w.grammar + w.frequency ≤ 1

instance (w : RankWeights) : Decidable (weightsOK w) := by
  unfold weightsOK
  infer_instance

/-- The candidate-pool key invariant stated by the specification:
lowercase alphabetic-with-hyphen shape with a leading letter, length at
least 3, no stopword, never the blank token (in either spelling), no
space. -/
def validCandidateKey (w : String) : Prop :=
  3 ≤ w.length ∧ w ∉ STOPWORDS ∧ w ≠ BLANK_TOKEN ∧ w ≠ "[blank]" ∧
    ' ' ∉ w.data ∧
    (∃ c cs, w.data = c :: cs ∧ c ∈ lowerChars ∧
      ∀ d ∈ cs, d ∈ lowerChars ∨ d = '-')

instance (w : String) : Decidable (validCandidateKey w) := by
  unfold validCandidateKey
  have : Decidable (∃ c cs, w.data = c :: cs ∧ c ∈ lowerChars ∧
      ∀ d ∈ cs, d ∈ lowerChars ∨ d = '-') := by
    rcases h : w.data with _ | ⟨c, cs⟩
    · exact Decidable.isFalse (by simp [h])
    · exact decidable_of_iff (c ∈ lowerChars ∧ ∀ d ∈ cs, d ∈ lowerChars ∨ d = '-')
        (by constructor
            · rintro ⟨h1, h2⟩; exact ⟨c, cs, rfl, h1, h2⟩
            · rintro ⟨c', cs', hEq, h1, h2⟩
              injection hEq with e1 e2
              subst e1; subst e2
              exact ⟨h1, h2⟩)
  exact instDecidableAnd

/-- Key-validity invariant for a whole provenance map. -/
def goodKeys (m : List (String × List String)) : Prop :=
  ∀ k ∈ mapKeys m, validCandidateKey k

/-! ## Concrete environments and inputs used by witnesses and
counterexamples -/

/-- A small WordNet oracle for concrete runs. -/
def testWordNet : WordNetData :=
  { posTags := fun w =>
      if w = "softly" then {POSTag.ADV}
      else if w = "story" then {POSTag.NOUN}
      else if w = "run" then {POSTag.VERB}
      else if w = "happy" then {POSTag.ADJ}
      else ∅
    primaryPos := fun _ => none
    lemmaCountTotal := fun _ => 20
    synonymsMany := fun _ _ => []
    derivationalForms := fun _ _ => []
    areSynonyms := fun _ _ => false }

/-- Concrete environment: WordNet available, no parser, encoder producing
a fixed unit vector (so every cosine evaluates to 1), no semantic network,
full emotion alignment recorded for "story". -/
def testEnv : Env :=
  { wn := some testWordNet
    spacy := none
    embedSentence := fun _ => [1]
    wordEmbedding := fun _ => [1]
    contextCentroid := fun _ => some [1]
    cosVal := fun _ _ => 1
    conceptnetRelated := fun _ _ => []
    emotionScore := fun _ _ => 0 }

/-- Concrete degraded environment: no WordNet, no parser. -/
def bareEnv : Env :=
  { wn := none
    spacy := none
    embedSentence := fun _ => [1]
    wordEmbedding := fun _ => [1]
    contextCentroid := fun _ => none
    cosVal := fun _ _ => 0
    conceptnetRelated := fun _ _ => []
    emotionScore := fun _ _ => 0 }

/-- Concrete context table. -/
def testContexts : List (String × CtxPayload) :=
  [("horror", { description := "a horror tone", words := ["fear", "dread"] }),
   ("neutral", { description := "a neutral tone", words := ["simple"] })]

/-- Source-map entry granting every provenance bonus to "story". -/
def testSourceMap : List (String × List String) :=
  [("story", ["wordnet", "conceptnet", "context", "derivational"])]

/-- Candidates for the reranker runs. -/
def rrCandA : RerankCand := { word := "alpha", score := 0.9 }

/-- Second reranker candidate. -/
def rrCandB : RerankCand := { word := "beta", score := 0.8 }

/-- Candidate fed to the active-path reranker run. -/
def rrCandLow : RerankCand := { word := "alpha", score := 0.1 }

/-- Reranker environment with the disable switch set. -/
def rrDisabledEnv : RerankEnv := { disabled := true, artifact := none }

/-- Reranker environment whose artifact is absent. -/
def rrNoArtifactEnv : RerankEnv := { disabled := false, artifact := none }

/-- Artifact with ordinal labels `0..3` whose classifier puts all mass on
label 1 for any input. -/
def rrArtifact : RerankArtifact :=
  { classes := [0, 1, 2, 3], proba := fun _ => some [[0, 1, 0, 0]] }

/-- Reranker environment with a live artifact. -/
def rrActiveEnv : RerankEnv := { disabled := false, artifact := some rrArtifact }

-- ===== THEOREMS =====

/- Batteries marks the `Rat` field operations `@[irreducible]`; restore
definitional transparency within this file so that concrete runs of the
embedded pipeline evaluate inside `decide`. -/
attribute [local semireducible] Rat.add Rat.mul Rat.sub Rat.inv Rat.ofScientific

/-! ### Generic helper lemmas -/

/-- Technical: a successful association-list lookup is a membership. -/
theorem lookup_mem {α β : Type} [BEq α] [LawfulBEq α] :
    ∀ (l : List (α × β)) (k : α) (v : β), l.lookup k = some v → (k, v) ∈ l := by
  intro l k v h
  induction l with
  | nil => simp [List.lookup] at h
  | cons p rest ih =>
    rcases p with ⟨a, b⟩
    by_cases hk : (k == a : Bool)
    · have hk' : k = a := eq_of_beq hk
      simp [List.lookup, hk] at h
      subst hk' h
      exact List.mem_cons_self _ _
    · simp [List.lookup, hk] at h
      exact List.mem_cons_of_mem _ (ih h)

/-- Technical: a failed association-list lookup means no key matches. -/
theorem lookup_none_forall {α β : Type} [BEq α] [LawfulBEq α] :
    ∀ (l : List (α × β)) (k : α), l.lookup k = none →
      ∀ p ∈ l, p.1 ≠ k := by
  intro l k
  induction l with
  | nil => intro _ p hp; simp at hp
  | cons q rest ih =>
    intro h p hp
    rcases q with ⟨a, b⟩
    by_cases hk : (k == a : Bool)
    · simp [List.lookup, hk] at h
    · simp [List.lookup, hk] at h
      rcases List.mem_cons.mp hp with hEq | hMem
      · subst hEq
        intro hcon
        simp at hk
        exact hk hcon.symm
      · rcases p with ⟨a', b'⟩
        intro hcon
        exact h a' b' hMem hcon.symm

/-- Technical: ASCII lowering never produces an uppercase letter. -/
theorem charLower_not_upper (c : Char) : charLower c ∉ upperChars := by
  unfold charLower
  rcases h : upperLowerPairs.lookup c with _ | l
  · intro hc
    have hall := lookup_none_forall upperLowerPairs c h
    have hex : ∀ c' ∈ upperChars, ∃ p ∈ upperLowerPairs, p.1 = c' := by decide
    obtain ⟨p, hp, hp1⟩ := hex c hc
    exact hall p hp hp1
  · have hmem := lookup_mem upperLowerPairs c l h
    have hval : ∀ p ∈ upperLowerPairs, p.2 ∉ upperChars := by decide
    exact hval _ hmem

/-- Technical: ASCII lowering turns letters into lowercase letters. -/
theorem charLower_letter_lower (c : Char) (hc : isAsciiLetter c = true) :
    charLower c ∈ lowerChars := by
  unfold isAsciiLetter at hc
  rcases Bool.or_eq_true_iff.mp hc with hu | hl
  · have hex : ∀ c' ∈ upperChars,
        ∃ p ∈ upperLowerPairs, p.1 = c' ∧ p.2 ∈ lowerChars := by decide
    obtain ⟨p, hp, hp1, hp2⟩ := hex c (by simpa using hu)
    unfold charLower
    rcases h : upperLowerPairs.lookup c with _ | l
    · exact absurd hp1 (lookup_none_forall upperLowerPairs c h p hp)
    · have hmem := lookup_mem upperLowerPairs c l h
      have huniq : ∀ p ∈ upperLowerPairs, ∀ q ∈ upperLowerPairs,
          p.1 = q.1 → p.2 = q.2 := by decide
      have hval := huniq p hp (c, l) hmem (by rw [hp1])
      show l ∈ lowerChars
      have hl2 : (c, l).2 ∈ lowerChars := by rw [← hval]; exact hp2
      simpa using hl2
  · have hnotkey : ∀ c' ∈ lowerChars, upperLowerPairs.lookup c' = none := by decide
    have hcl : c ∈ lowerChars := by simpa using hl
    have hid : charLower c = c := by
      unfold charLower
      rw [hnotkey c hcl]
    rw [hid]
    exact hcl

/-- Technical: membership in descending insertion. -/
theorem mem_insertDescBy {α : Type} (key : α → ℚ) (x y : α) :
    ∀ l : List α, y ∈ insertDescBy key x l ↔ y = x ∨ y ∈ l := by
  intro l
  induction l with
  | nil => simp [insertDescBy]
  | cons z zs ih =>
    by_cases h : key z ≤ key x
    · simp [insertDescBy, h]
    · simp [insertDescBy, h, ih]
      tauto

/-- Technical: membership in the stable descending sort. -/
theorem mem_sortDescBy {α : Type} (key : α → ℚ) (y : α) :
    ∀ l : List α, y ∈ sortDescBy key l ↔ y ∈ l := by
  intro l
  induction l with
  | nil => simp [sortDescBy]
  | cons z zs ih =>
    simp [sortDescBy, mem_insertDescBy, ih]

/-- Technical: descending insertion preserves descending pairwise order. -/
theorem pairwise_insertDescBy {α : Type} (key : α → ℚ) (x : α) :
    ∀ l : List α, l.Pairwise (fun a b => key b ≤ key a) →
      (insertDescBy key x l).Pairwise (fun a b => key b ≤ key a) := by
  intro l
  induction l with
  | nil => simp [insertDescBy]
  | cons z zs ih =>
    intro hp
    rcases List.pairwise_cons.mp hp with ⟨hz, hzs⟩
    by_cases h : key z ≤ key x
    · show (if key z ≤ key x then x :: z :: zs
        else z :: insertDescBy key x zs).Pairwise (fun a b => key b ≤ key a)
      rw [if_pos h]
      refine List.pairwise_cons.mpr ⟨?_, hp⟩
      intro b hb
      rcases List.mem_cons.mp hb with hEq | hMem
      · subst hEq; exact h
      · exact le_trans (hz b hMem) h
    · show (if key z ≤ key x then x :: z :: zs
        else z :: insertDescBy key x zs).Pairwise (fun a b => key b ≤ key a)
      rw [if_neg h]
      refine List.pairwise_cons.mpr ⟨?_, ih hzs⟩
      intro b hb
      rcases (mem_insertDescBy key x b zs).mp hb with hEq | hMem
      · subst hEq; exact le_of_lt (lt_of_not_le h)
      · exact hz b hMem

/-- Technical: the stable descending sort is descending. -/
theorem pairwise_sortDescBy {α : Type} (key : α → ℚ) :
    ∀ l : List α, (sortDescBy key l).Pairwise (fun a b => key b ≤ key a) := by
  intro l
  induction l with
  | nil => simp [sortDescBy]
  | cons z zs ih => exact pairwise_insertDescBy key z _ ih

/-- Technical: rounding half-to-even stays below any integer bound that
dominates the value. -/
theorem roundHalfEvenInt_le (x : ℚ) (B : ℤ) (h : x ≤ (B : ℚ)) :
    roundHalfEvenInt x ≤ B := by
  have hfloor : ⌊x⌋ ≤ B := by
    have h2 := Int.floor_mono h
    rwa [Int.floor_intCast] at h2
  show (if x - ((⌊x⌋ : ℤ) : ℚ) < 1 / 2 then ⌊x⌋
    else if 1 / 2 < x - ((⌊x⌋ : ℤ) : ℚ) then ⌊x⌋ + 1
    else if ⌊x⌋ % 2 = 0 then ⌊x⌋ else ⌊x⌋ + 1) ≤ B
  by_cases h1 : x - ((⌊x⌋ : ℤ) : ℚ) < 1 / 2
  · rw [if_pos h1]; exact hfloor
  · rw [if_neg h1]
    have hge : (1 : ℚ) / 2 ≤ x - ((⌊x⌋ : ℤ) : ℚ) := not_lt.mp h1
    have hne : ⌊x⌋ ≠ B := by
      intro hEq
      have hxB : x ≤ ((⌊x⌋ : ℤ) : ℚ) := by
        rw [hEq]; exact h
      linarith
    have hsucc : ⌊x⌋ + 1 ≤ B := by omega
    by_cases h2 : (1 : ℚ) / 2 < x - ((⌊x⌋ : ℤ) : ℚ)
    · rw [if_pos h2]; exact hsucc
    · rw [if_neg h2]
      by_cases h3 : ⌊x⌋ % 2 = 0
      · rw [if_pos h3]; exact hfloor
      · rw [if_neg h3]; exact hsucc

/-- Technical: rounding half-to-even stays above any integer bound that
the value dominates. -/
theorem le_roundHalfEvenInt (x : ℚ) (B : ℤ) (h : (B : ℚ) ≤ x) :
    B ≤ roundHalfEvenInt x := by
  have hfloor : B ≤ ⌊x⌋ := Int.le_floor.mpr h
  show B ≤ (if x - ((⌊x⌋ : ℤ) : ℚ) < 1 / 2 then ⌊x⌋
    else if 1 / 2 < x - ((⌊x⌋ : ℤ) : ℚ) then ⌊x⌋ + 1
    else if ⌊x⌋ % 2 = 0 then ⌊x⌋ else ⌊x⌋ + 1)
  by_cases h1 : x - ((⌊x⌋ : ℤ) : ℚ) < 1 / 2
  · rw [if_pos h1]; exact hfloor
  · rw [if_neg h1]
    by_cases h2 : (1 : ℚ) / 2 < x - ((⌊x⌋ : ℤ) : ℚ)
    · rw [if_pos h2]; omega
    · rw [if_neg h2]
      by_cases h3 : ⌊x⌋ % 2 = 0
      · rw [if_pos h3]; exact hfloor
      · rw [if_neg h3]; omega

/-- Technical: `round4` keeps values inside a `[lo, hi]` interval whose
endpoints are multiples of `1/10000`. -/
theorem round4_bounds (q : ℚ) (lo hi : ℤ)
    (hlo : ((lo : ℚ) / 10000) ≤ q) (hhi : q ≤ ((hi : ℚ) / 10000)) :
    ((lo : ℚ) / 10000) ≤ round4 q ∧ round4 q ≤ ((hi : ℚ) / 10000) := by
  unfold round4
  constructor
  · have h1 : (lo : ℚ) ≤ q * 10000 := by
      have := mul_le_mul_of_nonneg_right hlo (by norm_num : (0 : ℚ) ≤ 10000)
      calc (lo : ℚ) = (lo : ℚ) / 10000 * 10000 := by ring
        _ ≤ q * 10000 := this
    have := le_roundHalfEvenInt (q * 10000) lo h1
    have hcast : (lo : ℚ) ≤ ((roundHalfEvenInt (q * 10000) : ℤ) : ℚ) := by
      exact_mod_cast this
    linarith
  · have h1 : q * 10000 ≤ (hi : ℚ) := by
      have := mul_le_mul_of_nonneg_right hhi (by norm_num : (0 : ℚ) ≤ 10000)
      calc q * 10000 ≤ (hi : ℚ) / 10000 * 10000 := this
        _ = (hi : ℚ) := by ring
    have := roundHalfEvenInt_le (q * 10000) hi h1
    have hcast : ((roundHalfEvenInt (q * 10000) : ℤ) : ℚ) ≤ (hi : ℚ) := by
      exact_mod_cast this
    linarith

/-- Technical: membership in ascending string insertion. -/
theorem mem_insertStr (x y : String) :
    ∀ l : List String, y ∈ insertStr x l ↔ y = x ∨ y ∈ l := by
  intro l
  induction l with
  | nil => simp [insertStr]
  | cons z zs ih =>
    by_cases h : x ≤ z
    · simp [insertStr, h]
    · simp [insertStr, h, ih]
      tauto

/-- Technical: membership in the string sort. -/
theorem mem_sortStrings (y : String) :
    ∀ l : List String, y ∈ sortStrings l ↔ y ∈ l := by
  intro l
  induction l with
  | nil => simp [sortStrings]
  | cons z zs ih => simp [sortStrings, mem_insertStr, ih]

/-- Technical: `blankPositions` agrees with `posFrom` (via `enumFrom`). -/
theorem enumFrom_blankPositions (l : List String) :
    ∀ n : Nat, ((List.enumFrom n l).filter (fun p => p.2 = BLANK_TOKEN)).map Prod.fst
      = posFrom n l := by
  induction l with
  | nil => intro n; simp [posFrom]
  | cons t ts ih =>
    intro n
    by_cases h : t = BLANK_TOKEN <;>
      simp [List.enumFrom, List.filter, posFrom, h, ih]

/-- Technical: `blankPositions` in `posFrom` form. -/
theorem blankPositions_eq (l : List String) : blankPositions l = posFrom 0 l := by
  simpa [blankPositions, List.enum] using enumFrom_blankPositions l 0

/-- Technical: the `enum.map` blanking step in `eraseAt` form. -/
theorem enumFrom_eraseAt (l : List String) (bad : List Nat) :
    ∀ n : Nat, (List.enumFrom n l).map (fun p => if p.1 ∈ bad then "" else p.2)
      = eraseAt n l bad := by
  induction l with
  | nil => intro n; simp [eraseAt]
  | cons t ts ih => intro n; simp [List.enumFrom, eraseAt, ih]

/-- Technical: every position listed by `posFrom n` is at least `n`. -/
theorem posFrom_le (l : List String) :
    ∀ n i : Nat, i ∈ posFrom n l → n ≤ i := by
  induction l with
  | nil => intro n i h; simp [posFrom] at h
  | cons t ts ih =>
    intro n i h
    by_cases ht : t = BLANK_TOKEN
    · simp [posFrom, ht] at h
      rcases h with h | h
      · omega
      · have := ih (n + 1) i h; omega
    · simp [posFrom, ht] at h
      have := ih (n + 1) i h; omega

/-- Technical: the blank count equals the number of positions. -/
theorem countBlank_eq_length_posFrom (l : List String) :
    ∀ n : Nat, countBlank l = (posFrom n l).length := by
  induction l with
  | nil => intro n; simp [countBlank, posFrom]
  | cons t ts ih =>
    intro n
    by_cases ht : t = BLANK_TOKEN <;>
      simp [countBlank, posFrom, ht, List.countP_cons] at ih ⊢ <;>
      exact ih (n + 1)

/-- Technical: counting blanks after the blank-out-and-filter step. -/
theorem countBlank_filter_eraseAt (l : List String) :
    ∀ (n : Nat) (bad : List Nat),
      countBlank ((eraseAt n l bad).filter (fun t => t ≠ ""))
        = ((posFrom n l).filter (fun i => i ∉ bad)).length := by
  induction l with
  | nil => intro n bad; simp [eraseAt, posFrom, countBlank]
  | cons t ts ih =>
    intro n bad
    by_cases ht : t = BLANK_TOKEN
    · by_cases hn : n ∈ bad
      · simpa [eraseAt, posFrom, ht, hn, countBlank, BLANK_TOKEN] using ih (n + 1) bad
      · simpa [eraseAt, posFrom, ht, hn, countBlank, BLANK_TOKEN, List.countP_cons]
          using ih (n + 1) bad
    · by_cases hn : n ∈ bad
      · simpa [eraseAt, posFrom, ht, hn, countBlank] using ih (n + 1) bad
      · by_cases hT : t = ""
        · simpa [eraseAt, posFrom, ht, hn, hT, countBlank] using ih (n + 1) bad
        · simpa [eraseAt, posFrom, ht, hn, hT, countBlank, List.countP_cons]
            using ih (n + 1) bad

/-- Technical: the head of `posFrom` is strictly below everything in its
tail. -/
theorem posFrom_head_lt (l : List String) :
    ∀ (n i : Nat) (rest : List Nat), posFrom n l = i :: rest →
      ∀ j ∈ rest, i < j := by
  induction l with
  | nil => intro n i rest h; simp [posFrom] at h
  | cons t ts ih =>
    intro n i rest h j hj
    by_cases ht : t = BLANK_TOKEN
    · simp [posFrom, ht] at h
      obtain ⟨hi, hrest⟩ := h
      subst hi hrest
      have := posFrom_le ts (n + 1) j hj
      omega
    · simp [posFrom, ht] at h
      exact ih (n + 1) i rest h j hj

/-- Technical: `dropExtraBlanks` leaves at most one blank token. -/
theorem countBlank_dropExtraBlanks (l : List String) :
    countBlank (dropExtraBlanks l) ≤ 1 := by
  unfold dropExtraBlanks
  rw [blankPositions_eq]
  by_cases h : (posFrom 0 l).length > 1
  · simp only [h, if_true, List.enum, enumFrom_eraseAt, countBlank_filter_eraseAt]
    rcases hps : posFrom 0 l with _ | ⟨i, rest⟩
    · simp
    · have hlt := posFrom_head_lt l 0 i rest hps
      have hi : i ∉ rest := fun hmem => Nat.lt_irrefl i (hlt i hmem)
      have hrest : rest.filter (fun j => j ∉ rest) = [] := by
        apply List.filter_eq_nil_iff.mpr
        intro j hj
        simp [hj]
      simp [hps, hi, hrest]
  · simp only [h, if_false]
    have := countBlank_eq_length_posFrom l 0
    omega

/-- C9 (amended): `preprocess_text` collapses each blank-marker spelling
(runs of 2+ underscores, runs of 3+ dots, bracketed/parenthesized/angled/
braced "blank") into the single canonical blank token, and when multiple
blank tokens result, only the first is kept, so the normalized token list
contains at most one blank token.  (The lower-cased `cleaned_text` can
contain further blank tokens when the input itself contains the internal
placeholder word "blanktoken"; see the counterexample.) -/
theorem preprocess_text_single_blank :
    (markerInputs.all fun s =>
        decide ((preprocess_text s).tokens = [BLANK_TOKEN])) = true ∧
    ∀ text : String, countBlank (preprocess_text text).tokens ≤ 1 := by
  constructor
  · rfl
  · intro text
    by_cases h : text = ""
    · simp [preprocess_text, h, countBlank]
    · have htok : (preprocess_text text).tokens = preTokens text := by
        simp [preprocess_text, h]
      rw [htok]
      exact countBlank_dropExtraBlanks (preTokens0 text)

/-- C9 (counterexample): on the input "blanktoken __" exactly one blank
marker is present and the token list keeps a single blank token, yet the
cleaned text contains two canonical blank tokens, because lower-casing
routes the blank token through the placeholder word "blanktoken", which
the input also contains.  This refutes "the cleaned text contains at most
one blank token". -/
theorem preprocess_text_cleaned_two_blanks :
    (preprocess_text "blanktoken __").blank_present = true ∧
    countBlank (preprocess_text "blanktoken __").tokens = 1 ∧
    (preprocess_text "blanktoken __").cleaned_text = "[BLANK] [BLANK]" ∧
    countOcc (preprocess_text "blanktoken __").cleaned_text.data blankTokChars = 2 := by
  decide

/-! ### Feature bounds of the ranking engine -/

/-- Technical: cosine similarity is bounded whenever the oracle value is
(the zero branches are bounded by construction). -/
theorem cosine_similarity_bounds (env : Env)
    (hcos : ∀ a b, -1 ≤ env.cosVal a b ∧ env.cosVal a b ≤ 1) :
    ∀ a b, -1 ≤ cosine_similarity env a b ∧ cosine_similarity env a b ≤ 1 := by
  intro a b
  rcases a with _ | va
  · have h : cosine_similarity env none b = 0 := by simp [cosine_similarity]
    rw [h]
    exact ⟨by norm_num, by norm_num⟩
  · rcases b with _ | vb
    · have h : cosine_similarity env (some va) none = 0 := by
        simp [cosine_similarity]
      rw [h]
      exact ⟨by norm_num, by norm_num⟩
    · show -1 ≤ (if normSq va = 0 ∨ normSq vb = 0 then 0 else env.cosVal va vb)
        ∧ (if normSq va = 0 ∨ normSq vb = 0 then 0 else env.cosVal va vb) ≤ 1
      split
      · exact ⟨by norm_num, by norm_num⟩
      · exact hcos va vb

/-- Technical: `_scale_similarity` maps `[-1, 1]` into `[0, 1]`. -/
theorem scale_similarity_bounds (s : ℚ) (h1 : -1 ≤ s) (h2 : s ≤ 1) :
    0 ≤ scale_similarity s ∧ scale_similarity s ≤ 1 := by
  unfold scale_similarity
  constructor <;> linarith

/-- Technical: grammatical fit always lies in `[0, 1]`. -/
theorem grammatical_fit_bounds (env : Env) (w : String)
    (ep : Option (Finset POSTag)) :
    0 ≤ grammatical_fit env w ep ∧ grammatical_fit env w ep ≤ 1 := by
  rcases ep with _ | s
  · simp [grammatical_fit]
  · simp only [grammatical_fit]
    repeat' split
    all_goals norm_num

/-- Technical: the frequency prior always lies in `[0, 1]`. -/
theorem estimate_frequency_bounds (wn : Option WordNetData) (word : String) :
    0 ≤ estimate_frequency wn word ∧ estimate_frequency wn word ≤ 1 := by
  rcases wn with _ | d
  · simp [estimate_frequency]
  · show 0 ≤ (if word = "" then 0
        else min ((d.lemmaCountTotal word : ℚ)) 20 / 20)
      ∧ (if word = "" then 0
        else min ((d.lemmaCountTotal word : ℚ)) 20 / 20) ≤ 1
    split
    · exact ⟨by norm_num, by norm_num⟩
    · constructor
      · exact div_nonneg (le_min (Nat.cast_nonneg _) (by norm_num)) (by norm_num)
      · rw [div_le_one (by norm_num : (0 : ℚ) < 20)]
        exact min_le_right _ _

/-- Technical: the provenance bonus lies in `[0, 0.13]`. -/
theorem sourceBonus_bounds (sm : Option (List (String × List String)))
    (w : String) : 0 ≤ sourceBonus sm w ∧ sourceBonus sm w ≤ 13 / 100 := by
  rcases sm with _ | l
  · have h : sourceBonus none w = 0 := by simp [sourceBonus]
    rw [h]
    exact ⟨le_refl 0, by norm_num⟩
  · simp only [sourceBonus]
    repeat' split
    all_goals norm_num

/-- Technical: the emotion feature is bounded when the supplied scores
are. -/
theorem emotionFeature_bounds (es : Option (List (String × ℚ))) (w : String)
    (hem : ∀ l, es = some l → ∀ p ∈ l, 0 ≤ p.2 ∧ p.2 ≤ 1) :
    0 ≤ emotionFeature es w ∧ emotionFeature es w ≤ 1 := by
  rcases es with _ | l
  · simp [emotionFeature]
  · show 0 ≤ (l.lookup w).getD 0 ∧ (l.lookup w).getD 0 ≤ 1
    rcases hl : l.lookup w with _ | q
    · simp
    · simp only [Option.getD_some]
      exact hem l rfl (w, q) (lookup_mem l w q hl)

/-- Technical: the semantic feature lies in `[0, 1]`. -/
theorem semanticFeature_bounds (ctx : RankCtx)
    (hcos : ∀ a b, -1 ≤ ctx.env.cosVal a b ∧ ctx.env.cosVal a b ≤ 1)
    (word : String) :
    0 ≤ semanticFeature ctx word ∧ semanticFeature ctx word ≤ 1 := by
  unfold semanticFeature
  obtain ⟨h1, h2⟩ := cosine_similarity_bounds ctx.env hcos ctx.sentence_vector
    (some (ctx.env.wordEmbedding word))
  exact scale_similarity_bounds _ h1 h2

/-- Technical: the boosted context feature lies in `[0, 1]`. -/
theorem contextSimFeature_bounds (ctx : RankCtx)
    (hcos : ∀ a b, -1 ≤ ctx.env.cosVal a b ∧ ctx.env.cosVal a b ≤ 1)
    (word : String) :
    0 ≤ contextSimFeature ctx word ∧ contextSimFeature ctx word ≤ 1 := by
  unfold contextSimFeature
  obtain ⟨h1, h2⟩ := cosine_similarity_bounds ctx.env hcos ctx.context_vector
    (some (ctx.env.wordEmbedding word))
  obtain ⟨h3, h4⟩ := scale_similarity_bounds _ h1 h2
  split
  · constructor
    · exact le_max_of_le_right (by norm_num)
    · exact max_le h4 (by norm_num)
  · exact ⟨h3, h4⟩

/-- Technical: the raw (pre-rounding) score lies in `[0, 1.13]` under
bounded oracles and sane weights. -/
theorem rawScore_bounds (ctx : RankCtx)
    (hcos : ∀ a b, -1 ≤ ctx.env.cosVal a b ∧ ctx.env.cosVal a b ≤ 1)
    (hem : ∀ l, ctx.emotion_scores = some l → ∀ p ∈ l, 0 ≤ p.2 ∧ p.2 ≤ 1)
    (hw : weightsOK ctx.active) (word : String) :
    0 ≤ rawScore ctx word ∧ rawScore ctx word ≤ 113 / 100 := by
  obtain ⟨hws, hwc, hwe, hwg, hwf, hsum⟩ := hw
  obtain ⟨hs0, hs1⟩ := semanticFeature_bounds ctx hcos word
  obtain ⟨hc0, hc1⟩ := contextSimFeature_bounds ctx hcos word
  obtain ⟨he0, he1⟩ := emotionFeature_bounds ctx.emotion_scores word hem
  obtain ⟨hg0, hg1⟩ := grammatical_fit_bounds ctx.env word ctx.expected_pos
  obtain ⟨hf0, hf1⟩ := estimate_frequency_bounds ctx.env.wn word
  obtain ⟨hb0, hb1⟩ := sourceBonus_bounds ctx.source_map word
  unfold rawScore
  constructor
  · have t1 : 0 ≤ ctx.active.semantic * semanticFeature ctx word :=
      mul_nonneg hws hs0
    have t2 : 0 ≤ ctx.active.context * contextSimFeature ctx word :=
      mul_nonneg hwc hc0
    have t3 : 0 ≤ ctx.active.emotion * emotionFeature ctx.emotion_scores word :=
      mul_nonneg hwe he0
    have t4 : 0 ≤ ctx.active.grammar * grammatical_fit ctx.env word ctx.expected_pos :=
      mul_nonneg hwg hg0
    have t5 : 0 ≤ ctx.active.frequency * estimate_frequency ctx.env.wn word :=
      mul_nonneg hwf hf0
    linarith
  · have t1 : ctx.active.semantic * semanticFeature ctx word ≤ ctx.active.semantic :=
      mul_le_of_le_one_right hws hs1
    have t2 : ctx.active.context * contextSimFeature ctx word ≤ ctx.active.context :=
      mul_le_of_le_one_right hwc hc1
    have t3 : ctx.active.emotion * emotionFeature ctx.emotion_scores word
        ≤ ctx.active.emotion := mul_le_of_le_one_right hwe he1
    have t4 : ctx.active.grammar * grammatical_fit ctx.env word ctx.expected_pos
        ≤ ctx.active.grammar := mul_le_of_le_one_right hwg hg1
    have t5 : ctx.active.frequency * estimate_frequency ctx.env.wn word
        ≤ ctx.active.frequency := mul_le_of_le_one_right hwf hf1
    linarith

/-- Technical: the display part-of-speech names are never empty. -/
theorem posToString_ne_empty (p : POSTag) : posToString p ≠ "" := by
  cases p <;> decide

/-- Technical: `_resolve_pos` never returns an empty string. -/
theorem resolve_pos_ne_empty (env : Env) (w : String)
    (ep : Option (Finset POSTag)) : resolve_pos env w ep ≠ "" := by
  unfold resolve_pos
  dsimp only
  split
  · next out heq =>
    rcases ep with _ | s
    · simp at heq
    · dsimp only at heq
      by_cases hs : s = ∅
      · simp [hs] at heq
      · rw [if_neg hs] at heq
        split at heq
        · rcases Option.map_eq_some'.mp heq with ⟨p, _, hp⟩
          rw [← hp]
          exact posToString_ne_empty p
        · simp at heq
  · split
    · next p _ => exact posToString_ne_empty p
    · split
      · rcases hsf : posSortedFirst (get_pos_tags env.wn w) with _ | p
        · simp [hsf]
        · simp [hsf]
          exact posToString_ne_empty p
      · split
        · decide
        · split
          · next p _ => exact posToString_ne_empty p
          · decide

/-- Technical: membership in the scoring loop, with the strict-filter
guarantee. -/
theorem rankLoop_mem (ctx : RankCtx) :
    ∀ (ws : List String) (x : ScoredItem), x ∈ rankLoop ctx ws →
      ∃ w, w ∈ ws ∧ x = rankScoreWord ctx w ∧ is_valid_word w = true ∧
        (ctx.strict_pos = true → optPosTruthy ctx.expected_pos = true →
          ¬ grammatical_fit ctx.env w ctx.expected_pos < 0.95) := by
  intro ws
  induction ws with
  | nil => intro x hx; simp [rankLoop] at hx
  | cons w ws ih =>
    intro x hx
    rw [rankLoop] at hx
    split at hx
    · obtain ⟨w', hw', hrest⟩ := ih x hx
      exact ⟨w', List.mem_cons_of_mem _ hw', hrest⟩
    · next hvalid =>
      split at hx
      · obtain ⟨w', hw', hrest⟩ := ih x hx
        exact ⟨w', List.mem_cons_of_mem _ hw', hrest⟩
      · next hnoskip =>
        rcases List.mem_cons.mp hx with hEq | hMem
        · refine ⟨w, List.mem_cons_self _ _, hEq, not_not.mp hvalid, ?_⟩
          intro hstrict htruthy hlt
          exact hnoskip ⟨hstrict, htruthy, hlt⟩
        · obtain ⟨w', hw', hrest⟩ := ih x hMem
          exact ⟨w', List.mem_cons_of_mem _ hw', hrest⟩

/-- Technical: the scoring context built by `rank_candidates` projects to
its arguments. -/
theorem rankCtxOf_fields (env : Env) (cleaned_text context_key : String)
    (context_description : String) (blank_present : Bool)
    (emotion_scores : Option (List (String × ℚ))) (weights : Option RankWeights)
    (source_map : Option (List (String × List String))) (strict_pos : Bool)
    (expected_pos_override : Option (Finset POSTag))
    (context_words : Option (List String)) :
    (rankCtxOf env cleaned_text context_key context_description blank_present
        emotion_scores weights source_map strict_pos expected_pos_override
        context_words).env = env ∧
    (rankCtxOf env cleaned_text context_key context_description blank_present
        emotion_scores weights source_map strict_pos expected_pos_override
        context_words).active = weights.getD defaultWeights ∧
    (rankCtxOf env cleaned_text context_key context_description blank_present
        emotion_scores weights source_map strict_pos expected_pos_override
        context_words).emotion_scores = emotion_scores ∧
    (rankCtxOf env cleaned_text context_key context_description blank_present
        emotion_scores weights source_map strict_pos expected_pos_override
        context_words).strict_pos = strict_pos ∧
    (rankCtxOf env cleaned_text context_key context_description blank_present
        emotion_scores weights source_map strict_pos expected_pos_override
        context_words).expected_pos = rankResolvedExpected env cleaned_text
          blank_present expected_pos_override :=
  ⟨rfl, rfl, rfl, rfl, rfl⟩

/-- Technical: every weight set selected by the engine is sane (each
5-tuple sums to exactly 1). -/
theorem mode_weights_ok (mode intent : String) :
    weightsOK (mode_weights mode intent) ∧ weightsOK defaultWeights := by
  constructor
  · unfold mode_weights
    repeat' split
    all_goals (unfold weightsOK; norm_num [defaultWeights])
  · unfold weightsOK defaultWeights
    norm_num

/-- C2 (amended): every `score` returned by `rank_candidates` lies in
[0, 1.13] — a weighted sum with nonnegative weights totalling at most 1
over features in [0, 1], plus a provenance bonus of at most 0.13; no
clamp at 0.99 exists in `rank_candidates` (see the counterexample, which
reaches 1.13) — and every returned `pos` is a non-empty string. -/
theorem rank_candidates_score_bounds (env : Env)
    (cleaned_text context_key : String) (candidates : List String)
    (context_description : String) (blank_present : Bool)
    (emotion_scores : Option (List (String × ℚ))) (weights : Option RankWeights)
    (top_k : Nat) (source_map : Option (List (String × List String)))
    (strict_pos : Bool) (expected_pos_override : Option (Finset POSTag))
    (context_words : Option (List String))
    (hcos : ∀ a b, -1 ≤ env.cosVal a b ∧ env.cosVal a b ≤ 1)
    (hem : ∀ l, emotion_scores = some l → ∀ p ∈ l, 0 ≤ p.2 ∧ p.2 ≤ 1)
    (hw : weightsOK (weights.getD defaultWeights)) :
    ∀ item ∈ rank_candidates env cleaned_text context_key candidates
        context_description blank_present emotion_scores weights top_k
        source_map strict_pos expected_pos_override context_words,
      0 ≤ item.score ∧ item.score ≤ 113 / 100 ∧ item.pos ≠ "" := by
  intro item hitem
  unfold rank_candidates at hitem
  set ctx := rankCtxOf env cleaned_text context_key context_description
    blank_present emotion_scores weights source_map strict_pos
    expected_pos_override context_words with hctx
  have h1 := List.mem_of_mem_take hitem
  have h2 := (mem_sortDescBy (fun i => i.score) item _).mp h1
  obtain ⟨w, _, hEq, _, _⟩ := rankLoop_mem ctx candidates item h2
  have hcos' : ∀ a b, -1 ≤ ctx.env.cosVal a b ∧ ctx.env.cosVal a b ≤ 1 := by
    have he : ctx.env = env := by rw [hctx]; rfl
    rw [he]; exact hcos
  have hem' : ∀ l, ctx.emotion_scores = some l → ∀ p ∈ l, 0 ≤ p.2 ∧ p.2 ≤ 1 := by
    have he : ctx.emotion_scores = emotion_scores := by rw [hctx]; rfl
    rw [he]; exact hem
  have hw' : weightsOK ctx.active := by
    have he : ctx.active = weights.getD defaultWeights := by rw [hctx]; rfl
    rw [he]; exact hw
  have hraw := rawScore_bounds ctx hcos' hem' hw' w
  have hlo : (((0 : ℤ) : ℚ) / 10000) ≤ rawScore ctx w := by
    push_cast
    linarith [hraw.1]
  have hhi : rawScore ctx w ≤ (((11300 : ℤ) : ℚ) / 10000) := by
    push_cast
    linarith [hraw.2]
  have hb := round4_bounds (rawScore ctx w) 0 11300 hlo hhi
  rw [hEq]
  refine ⟨?_, ?_, resolve_pos_ne_empty ctx.env w ctx.expected_pos⟩
  · have := hb.1
    push_cast at this
    show 0 ≤ round4 (rawScore ctx w)
    linarith
  · have := hb.2
    push_cast at this
    show round4 (rawScore ctx w) ≤ 113 / 100
    linarith

/-- C2 (counterexample): a concrete `rank_candidates` run returns the
score 1.13 — a full-feature candidate with every provenance bonus — so
scores are not clamped to at most 0.99 and the claimed interval
[0, 0.99] is violated. -/
theorem rank_candidates_unclamped_score :
    ((rank_candidates testEnv "story time" "horror" ["story"] "" false
        (some [("story", 1)]) none 5 (some testSourceMap) false none
        none).map (fun i => i.score)) = [113 / 100] ∧
      ¬ ((113 : ℚ) / 100 ≤ 0.99) := by
  decide

/-- C2 (witness): the bounds theorem applied to the concrete full-feature
run. -/
theorem rank_candidates_score_bounds_witness :
    0 ≤ ((rank_candidates testEnv "story time" "horror" ["story"] "" false
        (some [("story", 1)]) none 5 (some testSourceMap) false none
        none).head?.getD ⟨"", 0, "X", ""⟩).score ∧
    ((rank_candidates testEnv "story time" "horror" ["story"] "" false
        (some [("story", 1)]) none 5 (some testSourceMap) false none
        none).head?.getD ⟨"", 0, "X", ""⟩).score ≤ 113 / 100 ∧
    ((rank_candidates testEnv "story time" "horror" ["story"] "" false
        (some [("story", 1)]) none 5 (some testSourceMap) false none
        none).head?.getD ⟨"", 0, "X", ""⟩).pos ≠ "" :=
  rank_candidates_score_bounds testEnv "story time" "horror" ["story"] ""
    false (some [("story", 1)]) none 5 (some testSourceMap) false none none
    (fun _ _ => ⟨by norm_num [testEnv], by norm_num [testEnv]⟩)
    (by intro l hl; injection hl with h; subst h; decide)
    (by decide) _ (by decide)

/-- C4: under `strict_pos` with a non-empty resolved expected
part-of-speech set, every candidate appearing in the output of
`rank_candidates` has grammatical fit at least 0.95 — weaker fits are
skipped entirely. -/
theorem rank_candidates_strict_filter (env : Env)
    (cleaned_text context_key : String) (candidates : List String)
    (context_description : String) (blank_present : Bool)
    (emotion_scores : Option (List (String × ℚ))) (weights : Option RankWeights)
    (top_k : Nat) (source_map : Option (List (String × List String)))
    (strict_pos : Bool) (expected_pos_override : Option (Finset POSTag))
    (context_words : Option (List String))
    (hstrict : strict_pos = true)
    (htruthy : optPosTruthy (rankResolvedExpected env cleaned_text
      blank_present expected_pos_override) = true) :
    ∀ item ∈ rank_candidates env cleaned_text context_key candidates
        context_description blank_present emotion_scores weights top_k
        source_map strict_pos expected_pos_override context_words,
      95 / 100 ≤ grammatical_fit env item.word (rankResolvedExpected env
        cleaned_text blank_present expected_pos_override) := by
  intro item hitem
  unfold rank_candidates at hitem
  set ctx := rankCtxOf env cleaned_text context_key context_description
    blank_present emotion_scores weights source_map strict_pos
    expected_pos_override context_words with hctx
  have h1 := List.mem_of_mem_take hitem
  have h2 := (mem_sortDescBy (fun i => i.score) item _).mp h1
  obtain ⟨w, _, hEq, _, hguard⟩ := rankLoop_mem ctx candidates item h2
  have hes : ctx.strict_pos = strict_pos := by rw [hctx]; rfl
  have hee : ctx.expected_pos = rankResolvedExpected env cleaned_text
      blank_present expected_pos_override := by rw [hctx]; rfl
  have henv : ctx.env = env := by rw [hctx]; rfl
  have hfit := hguard (by rw [hes]; exact hstrict) (by rw [hee]; exact htruthy)
  rw [henv, hee] at hfit
  have hword : item.word = w := by rw [hEq]; rfl
  rw [hword]
  have h095 : (0.95 : ℚ) = 95 / 100 := by norm_num
  rw [h095] at hfit
  exact not_lt.mp hfit

/-- C4 (witness): the strict filter theorem applied to a concrete strict
adverbial slot. -/
theorem rank_candidates_strict_filter_witness :
    95 / 100 ≤ grammatical_fit testEnv
      ((rank_candidates testEnv "he ran home" "horror" ["softly"] "" false
          none none 5 none true (some {POSTag.ADV}) none).head?.getD
        ⟨"", 0, "X", ""⟩).word
      (rankResolvedExpected testEnv "he ran home" false (some {POSTag.ADV})) :=
  rank_candidates_strict_filter testEnv "he ran home" "horror" ["softly"] ""
    false none none 5 none true (some {POSTag.ADV}) none rfl (by decide) _
    (by decide)

/-- C8 (counterexample): the literal case enumeration of the claim
disagrees with `_grammatical_fit`.  A word whose only tag is VERB in a
strict verbal slot scores 1.0 (the overlap already supplies the VERB tag)
where the enumeration says 0.55, and a word whose only tag is NOUN in a
NOUN slot scores 1.0 where the enumeration's "all remaining cases" says
0.0. -/
theorem grammatical_fit_claim_mismatch :
    grammatical_fit testEnv "run" (some {POSTag.VERB}) = 1 ∧
    grammaticalFitClaimed testEnv "run" (some {POSTag.VERB}) = 55 / 100 ∧
    grammatical_fit testEnv "story" (some {POSTag.NOUN}) = 1 ∧
    grammaticalFitClaimed testEnv "story" (some {POSTag.NOUN}) = 0 ∧
    (1 : ℚ) ≠ 55 / 100 ∧ (1 : ℚ) ≠ 0 := by
  decide

/-- C8 (amended): the exact case analysis of `_grammatical_fit`: 1.0 with
no expected set; 0.4 with no known tags; within a tag overlap, the
adverbial-slot morphology test (1.0 for "-ly"/irregular, else 0.45), and
1.0 for every other overlap — in particular a verbal slot with overlap
always scores 1.0, the 0.55 branch being unreachable; without overlap,
0.45 for adjective/adverb cross-category confusion and 0.0 otherwise. -/
theorem grammatical_fit_characterization :
    ∀ (env : Env) (word : String) (expected : Option (Finset POSTag)),
      grammatical_fit env word expected
        = grammaticalFitAmended env word expected := by
  intro env word expected
  rcases expected with _ | s
  · rfl
  · unfold grammatical_fit grammaticalFitAmended
    dsimp only
    by_cases h0 : get_pos_tags env.wn word = ∅
    · rw [if_pos h0, if_pos h0]
    · rw [if_neg h0, if_neg h0]
      by_cases h1 : (get_pos_tags env.wn word ∩ s) ≠ ∅
      · rw [if_pos h1, if_pos h1]
        by_cases h2 : s = {POSTag.ADV}
        · rw [if_pos h2, if_pos h2]
        · rw [if_neg h2, if_neg h2]
          by_cases h3 : s = {POSTag.VERB}
          · rw [if_pos h3]
            have hv : POSTag.VERB ∈ get_pos_tags env.wn word := by
              subst h3
              obtain ⟨x, hx⟩ := Finset.nonempty_iff_ne_empty.mpr h1
              obtain ⟨hx1, hx2⟩ := Finset.mem_inter.mp hx
              have : x = POSTag.VERB := Finset.mem_singleton.mp hx2
              rwa [this] at hx1
            simp [hv]
          · rw [if_neg h3]
      · rw [if_neg h1, if_neg h1]
        by_cases hA : POSTag.ADJ ∈ s ∧ POSTag.ADV ∈ get_pos_tags env.wn word
        · rw [if_pos hA, if_pos (Or.inl hA)]
        · rw [if_neg hA]
          by_cases hB : POSTag.ADV ∈ s ∧ POSTag.ADJ ∈ get_pos_tags env.wn word
          · rw [if_pos hB, if_pos (Or.inr hB)]
          · rw [if_neg hB, if_neg (by tauto)]

/-! ### Candidate-pool key invariants -/

/-- Technical: components of a successful `is_valid_word`. -/
theorem is_valid_word_spec (w : String) (h : is_valid_word w = true) :
    w ≠ "" ∧ 3 ≤ w.length ∧ w ∉ STOPWORDS ∧ matchesWordRe w.data = true := by
  unfold is_valid_word at h
  split at h
  · simp at h
  next h1 =>
    split at h
    · simp at h
    next h2 =>
      split at h
      · simp at h
      next h3 => exact ⟨h1, by omega, h3, h⟩

/-- Technical: inserting a source can only add the inserted key. -/
theorem insertSource_keys (key src : String) :
    ∀ (m : List (String × List String)) (k : String),
      k ∈ mapKeys (insertSource m key src) → k ∈ mapKeys m ∨ k = key := by
  intro m
  induction m with
  | nil =>
    intro k h
    have h2 : k ∈ [key] := h
    simp at h2
    exact Or.inr h2
  | cons p rest ih =>
    rcases p with ⟨k0, ss⟩
    intro k h
    by_cases h0 : k0 = key
    · simp only [insertSource, if_pos h0] at h
      have h2 : k ∈ k0 :: mapKeys rest := h
      exact Or.inl h2
    · simp only [insertSource, if_neg h0] at h
      have h2 : k ∈ k0 :: mapKeys (insertSource rest key src) := h
      rcases List.mem_cons.mp h2 with hEq | hMem
      · exact Or.inl (by rw [hEq]; exact List.mem_cons_self _ _)
      · rcases ih k hMem with hm | hk
        · exact Or.inl (List.mem_cons_of_mem _ hm)
        · exact Or.inr hk

/-- Technical: ASCII letters that are not uppercase are lowercase. -/
theorem lower_of_letter_not_upper (c : Char) (h : isAsciiLetter c = true)
    (h2 : c ∉ upperChars) : c ∈ lowerChars := by
  unfold isAsciiLetter at h
  rcases Bool.or_eq_true_iff.mp h with h | h
  · exact absurd (by simpa using h) h2
  · simpa using h

/-- Technical: `_add_candidate` preserves key validity. -/
theorem goodKeys_addCandidate (m : List (String × List String))
    (word source : String) (h : goodKeys m) :
    goodKeys (addCandidate m word source) := by
  unfold addCandidate
  dsimp only
  split
  · exact h
  next hne =>
    split
    · exact h
    next hnb =>
      split
      · exact h
      next hnsp =>
        split
        · exact h
        next hval =>
          intro k hk
          rcases insertSource_keys _ source _ k hk with hm | rfl
          · exact h k hm
          · have hv : is_valid_word (String.mk (listLower (stripChars word.data)))
                = true := not_not.mp hval
            obtain ⟨hne', hlen, hstop, hre⟩ := is_valid_word_spec _ hv
            refine ⟨hlen, hstop, ?_, ?_, hnsp, ?_⟩
            · intro heq
              rw [heq] at hre
              exact absurd hre (by decide)
            · intro heq
              apply hnb
              rw [heq]
              decide
            · rcases hsd : stripChars word.data with _ | ⟨d, ds⟩
              · exfalso
                apply hne'
                show String.mk (listLower (stripChars word.data)) = ""
                rw [hsd]
                rfl
              · rw [hsd] at hre
                have hdata : (String.mk (listLower (d :: ds))).data
                    = charLower d :: listLower ds := rfl
                have hre2 : (isAsciiLetter (charLower d)
                    && (listLower ds).all (fun e => isAsciiLetter e || e = '-'))
                    = true := hre
                have hhead : isAsciiLetter (charLower d) = true :=
                  (Bool.and_eq_true_iff.mp hre2).1
                have htail := (Bool.and_eq_true_iff.mp hre2).2
                refine ⟨charLower d, listLower ds, hdata, ?_, ?_⟩
                · exact lower_of_letter_not_upper _ hhead (charLower_not_upper d)
                · intro e he
                  have he2 := List.all_eq_true.mp htail e he
                  obtain ⟨x, _, hx⟩ := List.mem_map.mp he
                  rcases Bool.or_eq_true_iff.mp he2 with hl | hd
                  · left
                    refine lower_of_letter_not_upper _ hl ?_
                    rw [← hx]
                    exact charLower_not_upper x
                  · right
                    simpa using hd

/-- Technical: a fold of key-preserving steps preserves key validity. -/
theorem goodKeys_foldl {α : Type}
    (step : List (String × List String) → α → List (String × List String))
    (hstep : ∀ m a, goodKeys m → goodKeys (step m a)) :
    ∀ (l : List α) (m), goodKeys m → goodKeys (List.foldl step m l) := by
  intro l
  induction l with
  | nil => intro m h; exact h
  | cons x xs ih => intro m h; exact ih _ (hstep m x h)

/-- Technical: the empty provenance map has valid keys. -/
theorem goodKeys_nil : goodKeys [] := by
  intro k hk
  simp [mapKeys] at hk

/-- Technical: lexical expansion preserves key validity. -/
theorem goodKeys_expandWordnet (env : Env) (terms : List String)
    (mode : String) (m : List (String × List String)) (h : goodKeys m) :
    goodKeys (expandWordnet env m terms mode) := by
  unfold expandWordnet
  refine goodKeys_foldl _ ?_ _ _ h
  intro m' term h'
  dsimp only
  have hInner : goodKeys ((get_synonyms env.wn [term] 8).foldl (fun m syn =>
      (get_derivational_forms env.wn syn 4).foldl
        (fun m d => addCandidate m d "derivational")
        (addCandidate m syn "wordnet")) m') := by
    refine goodKeys_foldl _ ?_ _ _ h'
    intro m2 syn h2
    refine goodKeys_foldl _ ?_ _ _ (goodKeys_addCandidate m2 syn _ h2)
    intro m3 d h3
    exact goodKeys_addCandidate m3 d _ h3
  split
  · refine goodKeys_foldl _ ?_ _ _ hInner
    intro m4 d h4
    exact goodKeys_addCandidate m4 d _ h4
  · exact hInner

/-- Technical: semantic-network expansion preserves key validity. -/
theorem goodKeys_expandConceptnet (env : Env) (terms : List String)
    (mode : String) (m : List (String × List String)) (h : goodKeys m) :
    goodKeys (expandConceptnet env m terms mode) := by
  unfold expandConceptnet
  split
  · refine goodKeys_foldl _ ?_ _ _ h
    intro m' term h'
    refine goodKeys_foldl _ ?_ _ _ h'
    intro m2 r h2
    exact goodKeys_addCandidate m2 r _ h2
  · exact h

/-- Technical: slot fallbacks preserve key validity. -/
theorem goodKeys_addSlotFallbacks (expected : Option (Finset POSTag))
    (context_words : List String) (m : List (String × List String))
    (h : goodKeys m) : goodKeys (addSlotFallbacks m expected context_words) := by
  unfold addSlotFallbacks
  rcases expected with _ | s
  · exact h
  · dsimp only
    split
    · exact h
    · split
      · refine goodKeys_foldl _ ?_ _ _ h
        intro m' w h'
        dsimp only
        split
        · exact goodKeys_addCandidate m' w _ h'
        · split
          · exact goodKeys_addCandidate _ _ _ (goodKeys_addCandidate m' _ _ h')
          · exact goodKeys_addCandidate m' _ _ h'
      · split
        · refine goodKeys_foldl _ ?_ _ _ h
          intro m' w h'
          exact goodKeys_addCandidate m' w _ h'
        · split
          · refine goodKeys_foldl _ ?_ _ _ h
            intro m' w h'
            exact goodKeys_addCandidate m' w _ h'
          · exact h

/-- Technical: every stage of the candidate pipeline preserves key
validity, hence the whole provenance map has valid keys. -/
theorem goodKeys_pipelineSourceMap (env : Env) (mode : String)
    (decision : IntentDecision) (context_words neutral_words : List String) :
    goodKeys (pipelineSourceMap env mode decision context_words neutral_words) := by
  have h1 : goodKeys (pipeContextStage context_words) := by
    unfold pipeContextStage
    refine goodKeys_foldl _ ?_ _ _ goodKeys_nil
    intro m w h
    exact goodKeys_addCandidate m w _ h
  have h2 : ∀ m, goodKeys m → goodKeys (pipeExpandStage env mode decision m) := by
    intro m h
    unfold pipeExpandStage
    split
    · exact goodKeys_expandConceptnet env _ mode _
        (goodKeys_expandWordnet env _ mode m h)
    · exact h
  have h3 : ∀ m, goodKeys m → goodKeys (pipeBlankStage decision context_words m) := by
    intro m h
    unfold pipeBlankStage
    split
    · refine goodKeys_addSlotFallbacks _ _ _ ?_
      refine goodKeys_foldl _ ?_ _ _ h
      intro m' v h'
      exact goodKeys_addCandidate m' v _ h'
    · exact h
  have h4 : ∀ m, goodKeys m → goodKeys (pipeSelectionStage decision m) := by
    intro m h
    unfold pipeSelectionStage
    split
    · refine goodKeys_foldl _ ?_ _ _ h
      intro m' t h'
      exact goodKeys_addCandidate m' t _ h'
    · exact h
  have h5 : ∀ m, goodKeys m → goodKeys (pipeEditStage mode neutral_words m) := by
    intro m h
    unfold pipeEditStage
    split
    · refine goodKeys_foldl _ ?_ _ _ h
      intro m' w h'
      exact goodKeys_addCandidate m' w _ h'
    · exact h
  have h6 : ∀ m, goodKeys m → goodKeys (pipeFallbackStage context_words m) := by
    intro m h
    unfold pipeFallbackStage
    split
    · refine goodKeys_foldl _ ?_ _ _ h
      intro m' w h'
      exact goodKeys_addCandidate m' w _ h'
    · exact h
  exact h6 _ (h5 _ (h4 _ (h3 _ (h2 _ h1))))

/-- C7: every key of the candidate pool built by `build_pipeline` is a
lowercase alphabetic-with-hyphen token of length at least 3 that is not a
stopword, not the blank token, and contains no space; and the candidate
set handed to scoring has at most 320 entries, truncated in sorted order
when the pool exceeds the cap. -/
theorem build_pipeline_pool_invariant (env : Env)
    (text context_key mode : String) (contexts : List (String × CtxPayload))
    (selection : Option String) :
    (∀ w ∈ (build_pipeline env text context_key mode contexts
        selection).candidates, validCandidateKey w) ∧
    (∀ w ∈ mapKeys (build_pipeline env text context_key mode contexts
        selection).source_map, validCandidateKey w) ∧
    (build_pipeline env text context_key mode contexts
        selection).candidates.length ≤ 320 := by
  have hcand : (build_pipeline env text context_key mode contexts
      selection).candidates = pipelineCandidates (pipelineSourceMap env mode
        (detect_intent env text selection)
        (match contexts.lookup context_key with
          | some p => p.words
          | none => [])
        (match contexts.lookup "neutral" with
          | some p => p.words
          | none => [])) := rfl
  have hsm : (build_pipeline env text context_key mode contexts
      selection).source_map = pipelineSourceMap env mode
        (detect_intent env text selection)
        (match contexts.lookup context_key with
          | some p => p.words
          | none => [])
        (match contexts.lookup "neutral" with
          | some p => p.words
          | none => []) := rfl
  have hgood := goodKeys_pipelineSourceMap env mode
    (detect_intent env text selection)
    (match contexts.lookup context_key with
      | some p => p.words
      | none => [])
    (match contexts.lookup "neutral" with
      | some p => p.words
      | none => [])
  refine ⟨?_, ?_, ?_⟩
  · intro w hw
    rw [hcand] at hw
    unfold pipelineCandidates at hw
    dsimp only at hw
    split at hw
    · have h1 := List.mem_of_mem_take hw
      have h2 := (mem_sortStrings w _).mp h1
      exact hgood w h2
    · exact hgood w hw
  · intro w hw
    rw [hsm] at hw
    exact hgood w hw
  · rw [hcand]
    unfold pipelineCandidates
    dsimp only
    split
    · rw [List.length_take]
      exact min_le_left _ _
    · next hle =>
      omega

/-- C7 (witness): the invariant theorem applied to a concrete
pipeline run whose pool is the horror context vocabulary. -/
theorem build_pipeline_pool_invariant_witness :
    validCandidateKey "fear" ∧
    (build_pipeline testEnv "Hello world." "horror" "write" testContexts
      none).candidates.length ≤ 320 :=
  ⟨(build_pipeline_pool_invariant testEnv "Hello world." "horror" "write"
      testContexts none).1 "fear" (by decide),
   (build_pipeline_pool_invariant testEnv "Hello world." "horror" "write"
      testContexts none).2.2⟩

/-! ### Semantic drift -/

/-- Technical: drift is zero when WordNet is unavailable. -/
theorem drift_none (env : Env) (a b : String) (h : env.wn = none) :
    estimate_semantic_drift env a b = 0 := by
  unfold estimate_semantic_drift
  rw [h]

/-- Technical: drift of a text against itself is zero. -/
theorem drift_self (env : Env) (x : String) :
    estimate_semantic_drift env x x = 0 := by
  unfold estimate_semantic_drift
  rcases hwn : env.wn with _ | d
  · rfl
  · dsimp only
    split
    · rfl
    · next hne =>
      have hne2 : (extract_content_terms env x 10).toFinset ≠ ∅ := by
        intro hc
        exact hne (Or.inl hc)
      have hpos : 0 < (extract_content_terms env x 10).toFinset.card :=
        Finset.card_pos.mpr (Finset.nonempty_iff_ne_empty.mpr hne2)
      rw [Finset.inter_self]
      have hmax : max 1 (extract_content_terms env x 10).toFinset.card
          = (extract_content_terms env x 10).toFinset.card :=
        Nat.max_eq_right hpos
      rw [hmax]
      have hcast : ((extract_content_terms env x 10).toFinset.card : ℚ) ≠ 0 :=
        Nat.cast_ne_zero.mpr hpos.ne'
      rw [div_self hcast]
      ring

/-- Technical: the drift gate never lets a transformation through whose
drift exceeds the 0.52 budget. -/
theorem rewriteGate_drift_le (env : Env) (base y : String) :
    estimate_semantic_drift env base (rewriteGate env base y) ≤ 0.52 := by
  unfold rewriteGate
  split
  · rw [drift_self]
    norm_num
  · next h => exact le_of_not_lt h

/-- C10: `estimate_semantic_drift` always lies in [0, 1]; it is exactly 0
whenever WordNet is unavailable or either text yields no content terms;
consequently in the degraded mode the 0.52 drift gate accepts every
transformation. -/
theorem estimate_semantic_drift_spec :
    ∀ (env : Env) (a b x : String),
      (0 ≤ estimate_semantic_drift env a b
        ∧ estimate_semantic_drift env a b ≤ 1) ∧
      (env.wn = none → estimate_semantic_drift env a b = 0) ∧
      ((extract_content_terms env a 10).toFinset = ∅ ∨
          (extract_content_terms env b 10).toFinset = ∅ →
        estimate_semantic_drift env a b = 0) ∧
      (env.wn = none → rewriteGate env a x = x) := by
  intro env a b x
  refine ⟨?_, fun h => drift_none env a b h, ?_, ?_⟩
  · unfold estimate_semantic_drift
    rcases hwn : env.wn with _ | d
    · exact ⟨le_refl 0, by norm_num⟩
    · dsimp only
      split
      · exact ⟨le_refl 0, by norm_num⟩
      · set B := (extract_content_terms env a 10).toFinset with hB
        set A := (extract_content_terms env b 10).toFinset with hA
        have hsub : (B ∩ A).card ≤ B.card :=
          Finset.card_le_card (Finset.inter_subset_left)
        have hle : ((B ∩ A).card : ℚ) ≤ ((max 1 B.card : ℕ) : ℚ) := by
          exact_mod_cast le_trans hsub (Nat.le_max_right 1 B.card)
        have hpos : (0 : ℚ) < ((max 1 B.card : ℕ) : ℚ) := by
          exact_mod_cast Nat.lt_of_lt_of_le Nat.zero_lt_one (Nat.le_max_left 1 B.card)
        have hr0 : 0 ≤ ((B ∩ A).card : ℚ) / ((max 1 B.card : ℕ) : ℚ) :=
          div_nonneg (Nat.cast_nonneg _) (le_of_lt hpos)
        have hr1 : ((B ∩ A).card : ℚ) / ((max 1 B.card : ℕ) : ℚ) ≤ 1 :=
          (div_le_one hpos).mpr hle
        constructor <;> linarith
  · intro h
    unfold estimate_semantic_drift
    rcases hwn : env.wn with _ | d
    · rfl
    · dsimp only
      rw [if_pos h]
  · intro h
    unfold rewriteGate
    rw [drift_none env a x h]
    norm_num

/-- C10 (witness): the drift theorem applied to the degraded
environment. -/
theorem estimate_semantic_drift_spec_witness :
    (0 ≤ estimate_semantic_drift bareEnv "old text" "new text"
      ∧ estimate_semantic_drift bareEnv "old text" "new text" ≤ 1) ∧
    estimate_semantic_drift bareEnv "old text" "new text" = 0 ∧
    rewriteGate bareEnv "old text" "anything else" = "anything else" :=
  ⟨(estimate_semantic_drift_spec bareEnv "old text" "new text"
      "anything else").1,
   (estimate_semantic_drift_spec bareEnv "old text" "new text"
      "anything else").2.1 rfl,
   (estimate_semantic_drift_spec bareEnv "old text" "new text"
      "anything else").2.2.2 rfl⟩

/-- Technical: every string collected by the variant loop is either
inherited from the accumulator or within the drift budget. -/
theorem rewriteVariantsLoop_mem (env : Env) (base : String) (mv : Nat) :
    ∀ (sugg acc : List String) (v : String),
      v ∈ rewriteVariantsLoop env base mv sugg acc →
      v ∈ acc ∨ estimate_semantic_drift env base v ≤ 0.52 := by
  intro sugg
  induction sugg with
  | nil => intro acc v h; exact Or.inl h
  | cons s rest ih =>
    intro acc v h
    rw [rewriteVariantsLoop] at h
    dsimp only at h
    by_cases hski : replace_with_suggestion env base s = ""
        ∨ replace_with_suggestion env base s ∈ acc
    · rw [if_pos hski] at h
      exact ih acc v h
    · rw [if_neg hski] at h
      by_cases hd : estimate_semantic_drift env base
          (replace_with_suggestion env base s) ≤ 0.52
      · rw [if_pos hd] at h
        by_cases hlen : (acc ++ [replace_with_suggestion env base s]).length ≥ mv
        · rw [if_pos hlen] at h
          rcases List.mem_append.mp h with hm | hm
          · exact Or.inl hm
          · right
            rw [List.mem_singleton.mp hm]
            exact hd
        · rw [if_neg hlen] at h
          rcases ih _ v h with hm | hdr
          · rcases List.mem_append.mp hm with hm2 | hm2
            · exact Or.inl hm2
            · right
              rw [List.mem_singleton.mp hm2]
              exact hd
          · exact Or.inr hdr
      · rw [if_neg hd] at h
        by_cases hlen : (acc : List String).length ≥ mv
        · rw [if_pos hlen] at h
          exact Or.inl h
        · rw [if_neg hlen] at h
          exact ih acc v h

/-- C3: the transformation accepted by `rewrite_sentence` never drifts
more than 0.52 from the base (the gate falls back to the untransformed
base otherwise), and every variant returned by `rewrite_variants` is
within the same drift budget of the base rewrite. -/
theorem rewrite_drift_budget (env : Env) (sentence context mode : String)
    (blank_present allow_rewrite : Bool) (suggestions : List String)
    (max_variants : Nat) :
    (estimate_semantic_drift env
        (apply_common_replacements (normalize_spacing sentence))
        (rewriteGate env (apply_common_replacements (normalize_spacing sentence))
          (rewriteTransformed env
            (apply_common_replacements (normalize_spacing sentence)) context mode
            suggestions)) ≤ 0.52) ∧
    (∀ v ∈ rewrite_variants env sentence context mode blank_present
        allow_rewrite suggestions max_variants,
      estimate_semantic_drift env (rewrite_sentence env sentence context mode
        blank_present allow_rewrite suggestions) v ≤ 0.52) := by
  constructor
  · exact rewriteGate_drift_le env _ _
  · intro v hv
    unfold rewrite_variants at hv
    dsimp only at hv
    split at hv
    · simp at hv
    · split at hv
      · rcases rewriteVariantsLoop_mem env _ max_variants suggestions _ v hv
          with hm | hd
        · rw [List.mem_singleton.mp hm]
          rw [drift_self]
          norm_num
        · exact hd
      · rw [List.mem_singleton.mp hv]
        rw [drift_self]
        norm_num

/-- C3 (witness): the drift-budget theorem applied to a concrete complete
sentence in write mode. -/
theorem rewrite_drift_budget_witness :
    estimate_semantic_drift bareEnv
      (rewrite_sentence bareEnv "He walked home today." "horror" "write"
        false true [])
      "He walked home today." ≤ 0.52 :=
  (rewrite_drift_budget bareEnv "He walked home today." "horror" "write"
      false true [] 3).2 "He walked home today." (by decide)

/-! ### ML reranker -/

/-- Technical: every degraded branch returns a prefix of the input list. -/
theorem passThrough_is_take (cands : List RerankCand)
    (max_results : Option Nat) :
    ∃ k, passThrough cands max_results = cands.take k := by
  rcases max_results with _ | n
  · exact ⟨cands.length, (List.take_length cands).symm⟩
  · by_cases h : n ≠ 0
    · refine ⟨n, ?_⟩
      show (if n ≠ 0 then cands.take n else cands) = cands.take n
      rw [if_pos h]
    · refine ⟨cands.length, ?_⟩
      show (if n ≠ 0 then cands.take n else cands) = cands.take cands.length
      rw [if_neg h, List.take_length]

/-- C5: when the reranker is disabled, the artifact is missing or invalid,
or prediction fails, `rerank_candidate_dicts` degrades to the pass-through
`candidates[:max_results] if max_results else candidates`, which is always
a prefix of the input (order and values preserved); no exception escapes.
Note the pass-through still truncates when `max_results` is a nonzero
number, so the output is not always the whole input. -/
theorem rerank_degraded_pass_through (renv : RerankEnv) (task : String)
    (payload : RerankPayload) (cands : List RerankCand) (blend : ℚ)
    (max_results : Option Nat)
    (h : renv.disabled = true ∨ renv.artifact = none ∨
      (∀ a, renv.artifact = some a →
        a.proba ((cands.filter fun c =>
            String.mk (stripChars c.word.data) ≠ "").map
          (feature_text task payload)) = none)) :
    rerank_candidate_dicts renv task payload cands blend max_results
      = passThrough cands max_results ∧
    ∃ k, rerank_candidate_dicts renv task payload cands blend max_results
      = cands.take k := by
  have hmain : rerank_candidate_dicts renv task payload cands blend max_results
      = passThrough cands max_results := by
    unfold rerank_candidate_dicts
    by_cases hnil : cands = []
    · subst hnil
      rw [if_pos rfl]
      rcases passThrough_is_take [] max_results with ⟨k, hk⟩
      rw [hk, List.take_nil]
    · rw [if_neg hnil]
      by_cases hdis : renv.disabled
      · rw [if_pos hdis]
      · rw [if_neg hdis]
        rcases hart : renv.artifact with _ | a
        · rfl
        · dsimp only
          rcases h with h1 | h2 | h3
          · exact absurd h1 hdis
          · rw [hart] at h2
            exact absurd h2 (by simp)
          · have hp := h3 a hart
            by_cases hact : cands.filter
                (fun c => String.mk (stripChars c.word.data) ≠ "") = []
            · rw [if_pos hact]
            · rw [if_neg hact, hp]
  refine ⟨hmain, ?_⟩
  rw [hmain]
  exact passThrough_is_take cands max_results

/-- C5 (witness): the pass-through theorem applied to a missing
artifact. -/
theorem rerank_degraded_pass_through_witness :
    rerank_candidate_dicts rrNoArtifactEnv "suggest" {} [rrCandA, rrCandB]
        (3/4) none
      = passThrough [rrCandA, rrCandB] none ∧
    ∃ k, rerank_candidate_dicts rrNoArtifactEnv "suggest" {}
        [rrCandA, rrCandB] (3/4) none
      = ([rrCandA, rrCandB] : List RerankCand).take k :=
  rerank_degraded_pass_through rrNoArtifactEnv "suggest" {}
    [rrCandA, rrCandB] (3/4) none (Or.inr (Or.inl rfl))

/-- C5 (counterexample to the unchanged-input reading): with the disable
switch set and `max_results = 1`, the two-candidate input comes back
truncated to one entry, not unchanged. -/
theorem rerank_disabled_truncates :
    rerank_candidate_dicts rrDisabledEnv "suggest" {} [rrCandA, rrCandB]
        (3/4) (some 1) = [rrCandA] ∧
    ([rrCandA] : List RerankCand) ≠ [rrCandA, rrCandB] := by
  decide

/-- C6: on the active path (enabled, artifact loaded, at least one
non-blank candidate, prediction succeeds) the output is sorted descending
by score, truncated to `max 1 n` when `max_results = some n`, and every
output row carries `score = round(clamp(blend) * learned
+ (1 - clamp(blend)) * original, 4)` with the learned score the
probability-weighted label sum normalized by the maximum label and clamped
to [0, 1]. Note the published scores are rounded to 4 decimals and a
request for 0 results still yields one. -/
theorem rerank_active_blend (renv : RerankEnv) (a : RerankArtifact)
    (task : String) (payload : RerankPayload) (cands : List RerankCand)
    (blend : ℚ) (max_results : Option Nat) (probRows : List (List ℚ))
    (hdis : renv.disabled = false) (hart : renv.artifact = some a)
    (hnil : cands ≠ [])
    (hact : cands.filter (fun c => String.mk (stripChars c.word.data) ≠ "") ≠ [])
    (hp : a.proba ((cands.filter fun c =>
        String.mk (stripChars c.word.data) ≠ "").map
      (feature_text task payload)) = some probRows) :
    (rerank_candidate_dicts renv task payload cands blend
        max_results).Pairwise (fun x y => y.score ≤ x.score) ∧
    (∀ n, max_results = some n →
      (rerank_candidate_dicts renv task payload cands blend
        max_results).length ≤ max 1 n) ∧
    (∀ x ∈ rerank_candidate_dicts renv task payload cands blend max_results,
      ∃ (c : RerankCand) (raw : ℚ), c ∈ cands ∧ x.word = c.word ∧
        x.mlScore = some (round4 (clamp01 (raw / rerankMaxLabel a.classes))) ∧
        x.score = round4 (clamp01 blend
          * clamp01 (raw / rerankMaxLabel a.classes)
          + (1 - clamp01 blend) * c.score)) := by
  have hout : rerank_candidate_dicts renv task payload cands blend max_results
      = (match max_results with
         | some n =>
           (sortDescBy (fun c => c.score)
             (((cands.filter fun c =>
                 String.mk (stripChars c.word.data) ≠ "").zip
               (probRows.map (fun row => prob_to_score row a.classes))).map
              (rerankBlendItem (clamp01 blend)
                (rerankMaxLabel a.classes)))).take (max 1 n)
         | none =>
           sortDescBy (fun c => c.score)
             (((cands.filter fun c =>
                 String.mk (stripChars c.word.data) ≠ "").zip
               (probRows.map (fun row => prob_to_score row a.classes))).map
              (rerankBlendItem (clamp01 blend)
                (rerankMaxLabel a.classes)))) := by
    unfold rerank_candidate_dicts
    rw [if_neg hnil, hdis, if_neg (by simp), hart]
    dsimp only
    rw [if_neg hact, hp]
  have hmem : ∀ x, x ∈ rerank_candidate_dicts renv task payload cands blend
        max_results →
      x ∈ ((cands.filter fun c =>
          String.mk (stripChars c.word.data) ≠ "").zip
        (probRows.map (fun row => prob_to_score row a.classes))).map
       (rerankBlendItem (clamp01 blend) (rerankMaxLabel a.classes)) := by
    intro x hx
    rw [hout] at hx
    match max_results with
    | some n =>
      exact (mem_sortDescBy (fun c => c.score) x _).mp
        ((List.take_sublist _ _).mem hx)
    | none =>
      exact (mem_sortDescBy (fun c => c.score) x _).mp hx
  refine ⟨?_, ?_, ?_⟩
  · rw [hout]
    match max_results with
    | some n =>
      exact List.Pairwise.sublist (List.take_sublist _ _)
        (pairwise_sortDescBy (fun c : RerankCand => c.score) _)
    | none => exact pairwise_sortDescBy (fun c : RerankCand => c.score) _
  · intro n hn
    rw [hout, hn]
    dsimp only
    rw [List.length_take]
    exact min_le_left _ _
  · intro x hx
    rcases List.mem_map.mp (hmem x hx) with ⟨p, hpMem, hpEq⟩
    refine ⟨p.1, p.2, ?_, ?_, ?_, ?_⟩
    · have h1 := (List.of_mem_zip hpMem).1
      exact (List.mem_filter.mp h1).1
    · rw [← hpEq]
      rfl
    · rw [← hpEq]
      rfl
    · rw [← hpEq]
      rfl

/-- C6 (witness): the active-path theorem applied to the concrete
artifact whose prediction puts all mass on label 1. -/
theorem rerank_active_blend_witness :
    (rerank_candidate_dicts rrActiveEnv "suggest" {} [rrCandA] (3/4)
        none).Pairwise (fun x y => y.score ≤ x.score) ∧
    (∀ n, (none : Option Nat) = some n →
      (rerank_candidate_dicts rrActiveEnv "suggest" {} [rrCandA] (3/4)
        none).length ≤ max 1 n) ∧
    (∀ x ∈ rerank_candidate_dicts rrActiveEnv "suggest" {} [rrCandA] (3/4)
        none,
      ∃ (c : RerankCand) (raw : ℚ), c ∈ [rrCandA] ∧ x.word = c.word ∧
        x.mlScore = some (round4 (clamp01
          (raw / rerankMaxLabel rrArtifact.classes))) ∧
        x.score = round4 (clamp01 (3/4)
          * clamp01 (raw / rerankMaxLabel rrArtifact.classes)
          + (1 - clamp01 (3/4)) * c.score)) :=
  rerank_active_blend rrActiveEnv rrArtifact "suggest" {} [rrCandA] (3/4)
    none [[0, 1, 0, 0]] rfl rfl (by decide) (by decide) rfl

/-- C6 (counterexample to the literal reading): requesting 0 results from
the active path still returns one candidate, and its score is the
4-decimal rounding of the blend, not the exact blend value. -/
theorem rerank_active_rounds_and_min_one :
    (rerank_candidate_dicts rrActiveEnv "suggest" {} [rrCandLow] (4/5)
        (some 0)).length = 1 ∧
    rerank_candidate_dicts rrActiveEnv "suggest" {} [rrCandLow] (4/5)
        (some 0)
      = [{ rrCandLow with
            mlScore := some (3333/10000),
            score := 2867/10000 }] ∧
    (2867/10000 : ℚ) ≠ (4/5) * (1/3) + (1 - 4/5) * rrCandLow.score := by
  refine ⟨?_, ?_, ?_⟩ <;> decide

/-! ### Engine: blanks block rewrites -/

/-- Technical: `_should_rewrite` is false outright when a blank is
present. -/
theorem should_rewrite_blank (env : Env) (text mode trigger : String) :
    should_rewrite env text mode trigger true = false := rfl

/-- Technical: with the rewrite gate closed, `rewrite_sentence` returns
the empty string. -/
theorem rewrite_sentence_disallowed (env : Env) (s c m : String) (bp : Bool)
    (sugg : List String) :
    rewrite_sentence env s c m bp false sugg = "" := by
  unfold rewrite_sentence
  rw [if_pos (Or.inr (by simp))]

/-- Technical: with the rewrite gate closed, `rewrite_variants` returns
the empty list. -/
theorem rewrite_variants_disallowed (env : Env) (s c m : String) (bp : Bool)
    (sugg : List String) (mv : Nat) :
    rewrite_variants env s c m bp false sugg mv = [] := by
  unfold rewrite_variants
  dsimp only
  rw [if_pos (rewrite_sentence_disallowed env s c m bp sugg)]

/-- Technical: the engine's rewrite-candidate list is empty whenever the
intent decision carries a blank. -/
theorem engineRewrites_blank (env : Env) (raw ck mk trigger : String)
    (tw : List String) :
    engineRewrites env raw ck mk trigger true tw = [] := by
  unfold engineRewrites
  rw [should_rewrite_blank]
  exact rewrite_variants_disallowed env raw ck mk true tw 3

/-- Technical: `detect_intent` reports exactly the blank flag computed by
`preprocess_text`, whichever intent wins. -/
theorem detect_intent_blank (env : Env) (text : String)
    (selection : Option String) :
    (detect_intent env text selection).blank_present
      = (preprocess_text text).blank_present := by
  unfold detect_intent
  dsimp only
  split
  · rfl
  · split
    · next h => exact h.symm
    · next h => exact (Bool.eq_false_iff.mpr h).symm

/-- Technical: the main-path response has no rewrites when the pipeline
decision carries a blank. -/
theorem generateMain_blank (env : Env)
    (contexts : List (String × CtxPayload)) (ck mk raw trigger : String)
    (pipeline : PipelineResult)
    (h : pipeline.decision.blank_present = true) :
    (generateMain env contexts ck mk raw trigger pipeline).rewrites = [] ∧
    (generateMain env contexts ck mk raw trigger pipeline).rewrite = "" := by
  unfold generateMain
  dsimp only
  rw [h, engineRewrites_blank]
  exact ⟨rfl, rfl⟩

/-- C1: when preprocessing detects a blank, `_should_rewrite` is false, a
closed gate makes `rewrite_variants` empty, and consequently every
response `generate_suggestions` produces for such an input has an empty
`rewrites` list and an empty `rewrite` string. -/
theorem blank_blocks_rewrites (env : Env)
    (initContexts : Option (List (String × CtxPayload)))
    (text context mode trigger s c m : String) (selection : Option String)
    (bp : Bool) (sugg : List String) (mv : Nat) (r : SuggestionResponse)
    (hblank : (preprocess_text text).blank_present = true)
    (hr : generate_suggestions env initContexts text context mode selection
      trigger = some r) :
    should_rewrite env s m trigger true = false ∧
    rewrite_variants env s c m bp false sugg mv = [] ∧
    r.rewrites = [] ∧ r.rewrite = "" := by
  refine ⟨rfl, rewrite_variants_disallowed env s c m bp sugg mv, ?_⟩
  rcases initContexts with _ | contexts
  · have h2 : some (fallback_response false) = some r := hr
    rw [← Option.some.inj h2]
    exact ⟨rfl, rfl⟩
  · unfold generate_suggestions at hr
    dsimp only at hr
    split at hr
    · exact absurd hr (by simp)
    · split at hr
      · rw [← Option.some.inj hr]
        exact ⟨rfl, rfl⟩
      · split at hr
        · rw [← Option.some.inj hr]
          exact ⟨rfl, rfl⟩
        · rw [← Option.some.inj hr]
          apply generateMain_blank
          show (detect_intent env text selection).blank_present = true
          rw [detect_intent_blank]
          exact hblank

/-- C1 (witness): a concrete blank input on the degraded environment; the
main path returns five draft-verb suggestions and no rewrites. -/
theorem blank_blocks_rewrites_witness :
    should_rewrite bareEnv "He ran." "write" "" true = false ∧
    rewrite_variants bareEnv "He ran." "horror" "write" true false [] 3
      = [] ∧
    SuggestionResponse.rewrites
      { suggestions :=
          [{ word := "consider", score := 59/100, pos := "X",
             note := "Aligned with d. Lexical alternative for this context. Rare word." },
           { word := "explore", score := 59/100, pos := "X",
             note := "Aligned with d. Lexical alternative for this context. Rare word." },
           { word := "remember", score := 59/100, pos := "X",
             note := "Aligned with d. Lexical alternative for this context. Rare word." },
           { word := "reflect", score := 59/100, pos := "X",
             note := "Aligned with d. Lexical alternative for this context. Rare word." },
           { word := "discover", score := 59/100, pos := "X",
             note := "Aligned with d. Lexical alternative for this context. Rare word." }],
        rewrite := "",
        rewrites := [],
        explanation := "Blank-fill suggestions are grammar-filtered for the missing slot and aligned to a neutral tone.",
        detected_blank := true } = [] ∧
    SuggestionResponse.rewrite
      { suggestions :=
          [{ word := "consider", score := 59/100, pos := "X",
             note := "Aligned with d. Lexical alternative for this context. Rare word." },
           { word := "explore", score := 59/100, pos := "X",
             note := "Aligned with d. Lexical alternative for this context. Rare word." },
           { word := "remember", score := 59/100, pos := "X",
             note := "Aligned with d. Lexical alternative for this context. Rare word." },
           { word := "reflect", score := 59/100, pos := "X",
             note := "Aligned with d. Lexical alternative for this context. Rare word." },
           { word := "discover", score := 59/100, pos := "X",
             note := "Aligned with d. Lexical alternative for this context. Rare word." }],
        rewrite := "",
        rewrites := [],
        explanation := "Blank-fill suggestions are grammar-filtered for the missing slot and aligned to a neutral tone.",
        detected_blank := true } = "" :=
  blank_blocks_rewrites bareEnv
    (some [("neutral", { description := "d", words := [] })])
    "__" "neutral" "write" "" "He ran." "horror" "write" none true [] 3
    { suggestions :=
        [{ word := "consider", score := 59/100, pos := "X",
           note := "Aligned with d. Lexical alternative for this context. Rare word." },
         { word := "explore", score := 59/100, pos := "X",
           note := "Aligned with d. Lexical alternative for this context. Rare word." },
         { word := "remember", score := 59/100, pos := "X",
           note := "Aligned with d. Lexical alternative for this context. Rare word." },
         { word := "reflect", score := 59/100, pos := "X",
           note := "Aligned with d. Lexical alternative for this context. Rare word." },
         { word := "discover", score := 59/100, pos := "X",
           note := "Aligned with d. Lexical alternative for this context. Rare word." }],
      rewrite := "",
      rewrites := [],
      explanation := "Blank-fill suggestions are grammar-filtered for the missing slot and aligned to a neutral tone.",
      detected_blank := true }
    (by decide) (by decide)

end WordCraft
